import Mathlib

/-!
# Zerone registration backend: field normalisation, validation, row resolution, CSV append

A shallow embedding of the core of `src/server.js`:

* `normalize` (line 288) and the inlined normalisation of `validatePayload` (lines 383-384),
* `EVENT_SCHEMAS` (lines 35-271),
* `csvSafe` (lines 276-282),
* `appendRowToCSV` with its local `findValue` (lines 285-333),
* `validatePayload` (lines 374-389),
* the `POST /register` handler (lines 392-454).

Modelling conventions.

* A JavaScript string is a Lean `String` (a sequence of Unicode scalar values); lone surrogate
  code units are not represented.
* A record (`payload`) is the list of its own enumerable properties in `Object.keys` order.
* The file system is a map from paths to file contents; I/O failures are not modelled, every
  path is taken to name a regular file, and requests are handled one after the other.
* `path.join` and `__dirname` belong to the Node runtime and are parameters (`Host`).
* `console.log` and the fire-and-forget confirmation e-mail touch neither the file state nor the
  response and are left out.
-/

namespace Zerone

/-! ## Strings -/

/-- Lower-case form of one character, as `String.prototype.toLowerCase` produces it.
ASCII capitals map to their small letters. Exactly two characters outside ASCII have a lower-case
form that contains an ASCII character: U+212A KELVIN SIGN, which becomes `k`, and U+0130 LATIN
CAPITAL LETTER I WITH DOT ABOVE, which becomes `i` followed by U+0307. Every other character
outside ASCII has a lower-case form made of characters outside ASCII only; such a character is
kept as it is, which is indistinguishable once `/[^a-z0-9]/g` has been applied. -/
def toLowerCaseChar (c : Char) : List Char :=
  if 65 ≤ c.toNat ∧ c.toNat ≤ 90 then [Char.ofNat (c.toNat + 32)]
  else if c.toNat = 0x212A then ['k']
  else if c.toNat = 0x130 then ['i', Char.ofNat 0x307]
  else [c]

/-- The method `s.toLowerCase()`. -/
def toLowerCase (s : String) : String := ⟨s.data.flatMap toLowerCaseChar⟩

/-- The character class `[a-z0-9]`. -/
def isLowerAlnum (c : Char) : Bool :=
  (97 ≤ c.toNat && c.toNat ≤ 122) || (48 ≤ c.toNat && c.toNat ≤ 57)

/-- The call `s.replace(/[^a-z0-9]/g, "")`: every character outside `[a-z0-9]` is deleted. -/
def stripNonAlnum (s : String) : String := ⟨s.data.filter isLowerAlnum⟩

/-- The helper of `appendRowToCSV`, line 288:
`const normalize = (s) => s.toLowerCase().replace(/[^a-z0-9]/g, "")`. -/
def normalize (s : String) : String := stripNonAlnum (toLowerCase s)

/-- The double quote character. -/
def dq : Char := Char.ofNat 34

/-- The call `s.replace(/"/g, '""')`: every double quote is doubled. -/
def escapeQuotes (s : String) : String :=
  ⟨s.data.flatMap fun c => if c = dq then [dq, dq] else [c]⟩

/-- The template literal that puts one pair of double quotes around a string
(lines 281 and 322). -/
def wrapQuotes (s : String) : String := ⟨dq :: s.data ++ [dq]⟩

/-! ## Values and records -/

/-- The scalar JavaScript values a record can hold. `num` carries an integer-valued number
(a safe integer); fractional numbers are outside the model. -/
inductive JSVal where
  | undefined
  | null
  | bool (b : Bool)
  | num (n : Int)
  | str (s : String)
  deriving DecidableEq, Repr

namespace JSVal

/-- Truthiness (`ToBoolean`). -/
def truthy : JSVal → Bool
  | undefined => false
  | null => false
  | bool b => b
  | num n => n ≠ 0
  | str s => s ≠ ""

/-- The conversion `String(v)`. -/
def toStr : JSVal → String
  | undefined => "undefined"
  | null => "null"
  | bool true => "true"
  | bool false => "false"
  | num n => toString n
  | str s => s

/-- The operator `a || b`. -/
def or (a b : JSVal) : JSVal := if a.truthy then a else b

end JSVal

/-- A record: its own properties, in `Object.keys` order. -/
abbrev Payload := List (String × JSVal)

namespace Payload

/-- The call `Object.keys(payload)`. -/
def keys (p : Payload) : List String := p.map Prod.fst

/-- Property read `payload[k]`: the value stored under `k`, `undefined` when there is none. -/
def get (p : Payload) (k : String) : JSVal :=
  match p.find? (fun kv => kv.1 = k) with
  | some kv => kv.2
  | none => JSVal.undefined

/-- Property write `payload[k] = v`: an existing key keeps its place, a new key goes last. -/
def set (p : Payload) (k : String) (v : JSVal) : Payload :=
  if p.any (fun kv => kv.1 = k) then p.map (fun kv => if kv.1 = k then (k, v) else kv)
  else p ++ [(k, v)]

end Payload

/-! ## Event schemas -/

/-- One entry of `EVENT_SCHEMAS`. -/
structure Schema where
  file : String
  headers : List String
  required : List String
  deriving DecidableEq, Repr

/-- Columns shared by the five single-participant events. -/
def soloHeaders : List String :=
  ["Event Name", "Team Name", "Name 1", "USN/ID", "College", "Phone", "Email", "UTR ID",
   "UTR Number", "Screenshot", "Timestamp"]

/-- Required keys shared by the five single-participant events. -/
def soloRequired : List String :=
  ["teamName", "name1", "usn", "college", "phone", "email", "utrId", "utrNumber"]

/-- The table `EVENT_SCHEMAS` (lines 35-271), in declaration order. -/
def EVENT_SCHEMAS : List (String × Schema) :=
  [("it-quiz",
      { file := "it_quiz.csv"
        headers := ["Event Name", "Team Name", "Name 1", "USN/ID 1", "Name 2", "USN/ID 2",
                    "College", "Phone", "Email", "Screenshot", "Timestamp"]
        required := ["teamName", "name1", "usn1", "name2", "usn2", "college", "phone",
                     "email"] }),
   ("garuda-anveshana",
      { file := "garuda_anveshana.csv"
        headers := ["Event Name", "Team Name", "Name 1", "Name 2", "Name 3", "Name 4", "USN/ID",
                    "College", "Phone", "Email", "UTR ID", "UTR Number", "Screenshot",
                    "Timestamp"]
        required := ["teamName", "name1", "name2", "name3", "name4", "usn", "college", "phone",
                     "email", "utrId", "utrNumber"] }),
   ("web-kala-vinyasa",
      { file := "web_kala_vinyasa.csv"
        headers := ["Event Name", "Team Name", "Name 1", "Name 2", "USN/ID", "College", "Phone",
                    "Email", "UTR ID", "UTR Number", "Screenshot", "Timestamp"]
        required := ["teamName", "name1", "name2", "usn", "college", "phone", "email", "utrId",
                     "utrNumber"] }),
   ("vedix", { file := "vedix.csv", headers := soloHeaders, required := soloRequired }),
   ("drishti", { file := "drishti.csv", headers := soloHeaders, required := soloRequired }),
   ("raja-neeti", { file := "raja_neeti.csv", headers := soloHeaders, required := soloRequired }),
   ("chakravyuha",
      { file := "chakravyuha.csv"
        headers := ["Event Name", "Team Name", "Name 1", "USN/ID 1", "Name 2", "USN/ID 2",
                    "Name 3", "USN/ID 3", "Name 4", "USN/ID 4", "College", "Phone", "Email",
                    "UTR ID", "UTR Number", "Screenshot", "Timestamp"]
        required := ["teamName", "name1", "usn1", "name2", "usn2", "name3", "usn3", "name4",
                     "usn4", "college", "phone", "email", "utrId", "utrNumber"] }),
   ("dhwani-yuddha",
      { file := "dhwani_yuddha.csv", headers := soloHeaders, required := soloRequired })]

/-- Property names every object literal inherits from `Object.prototype`. -/
def objectPrototypeKeys : List String :=
  ["constructor", "__proto__", "hasOwnProperty", "isPrototypeOf", "propertyIsEnumerable",
   "toLocaleString", "toString", "valueOf", "__defineGetter__", "__defineSetter__",
   "__lookupGetter__", "__lookupSetter__"]

/-- What the property read `EVENT_SCHEMAS[eventKey]` yields. -/
inductive SchemaLookup where
  | own (schema : Schema)
  | inherited
  | undefined
  deriving DecidableEq, Repr

/-- The property read `EVENT_SCHEMAS[eventKey]`: an own entry, else a member inherited from
`Object.prototype` (a truthy value that has no `required` property), else `undefined`. -/
def lookupSchema (eventKey : String) : SchemaLookup :=
  match EVENT_SCHEMAS.find? (fun e => e.1 = eventKey) with
  | some e => SchemaLookup.own e.2
  | none => if eventKey ∈ objectPrototypeKeys then SchemaLookup.inherited
            else SchemaLookup.undefined

/-- An event key is registered when `EVENT_SCHEMAS` has an own entry for it. -/
def registered (eventKey : String) (schema : Schema) : Prop :=
  lookupSchema eventKey = SchemaLookup.own schema

instance (eventKey : String) (schema : Schema) : Decidable (registered eventKey schema) := by
  unfold registered
  infer_instance

/-! ## CSV helpers and row resolution -/

/-- The function `csvSafe` (lines 276-282). -/
def csvSafe (val : JSVal) : String :=
  if val = JSVal.undefined ∨ val = JSVal.null then ""
  else
    let s := val.toStr
    let escaped := escapeQuotes s
    wrapQuotes escaped

/-- The closure `findValue` of `appendRowToCSV` (lines 290-315). The local `matchKey` is a
string, so the test `matchKey ? ... : ""` fails for the empty key as well as for no key. -/
def findValue (payload : Payload) (header : String) : JSVal :=
  let nh := normalize header
  if nh = "usnid" ∨ nh = "usn" then
    (((payload.get "usn").or (payload.get "usn1")).or (payload.get "USN")).or (JSVal.str "")
  else if nh = "usnid1" then ((payload.get "usn1").or (payload.get "usn")).or (JSVal.str "")
  else if nh = "usnid2" then (payload.get "usn2").or (JSVal.str "")
  else if nh = "usnid3" then (payload.get "usn3").or (JSVal.str "")
  else if nh = "usnid4" then (payload.get "usn4").or (JSVal.str "")
  else if nh = "eventname" then
    ((payload.get "eventName").or (payload.get "Event Name")).or (JSVal.str "")
  else if nh = "screenshot" then (payload.get "screenshot").or (JSVal.str "")
  else
    match payload.keys.find? (fun pk => normalize pk = nh) with
    | some matchKey => if matchKey ≠ "" then payload.get matchKey else JSVal.str ""
    | none => JSVal.str ""

/-- The row of `appendRowToCSV`, line 318: `headers.map((h) => findValue(h))`. -/
def resolveRow (headers : List String) (payload : Payload) : List JSVal :=
  headers.map (findValue payload)

/-- The data line of `appendRowToCSV`, lines 321-322: every value converted with `String`, its
quotes doubled, wrapped in quotes; the fields joined by commas; a newline at the end. -/
def csvLine (row : List JSVal) : String :=
  ",".intercalate (row.map fun v => wrapQuotes (escapeQuotes v.toStr)) ++ "\n"

/-- The header line of `appendRowToCSV`, line 326: `headers.join(",") + "\n"`. -/
def headerLine (headers : List String) : String := ",".intercalate headers ++ "\n"

/-! ## File state -/

/-- File state: the content of every existing file, by path. -/
abbrev FS := String → Option String

/-- The Node runtime around the program: the directory `CSV_DIR` (`path.join(__dirname, "csv")`)
and the library function `path.join` on two segments. -/
structure Host where
  CSV_DIR : String
  pathJoin : String → String → String

/-- The call `fs.existsSync(p)`. -/
def existsSync (fs : FS) (p : String) : Bool := (fs p).isSome

/-- The call `fs.writeFileSync(p, data)`: the file is created or replaced. -/
def writeFileSync (fs : FS) (p data : String) : FS :=
  fun q => if q = p then some data else fs q

/-- The call `fs.appendFileSync(p, data)`: the data goes after the present content. -/
def appendFileSync (fs : FS) (p data : String) : FS :=
  fun q => if q = p then some ((fs p).getD "" ++ data) else fs q

/-- The function `appendRowToCSV` (lines 285-333): the new file state and the returned path. -/
def appendRowToCSV (host : Host) (fs : FS) (filename : String) (headers : List String)
    (payload : Payload) : FS × String :=
  let filePath := host.pathJoin host.CSV_DIR filename
  let row := resolveRow headers payload
  let line := csvLine row
  if !existsSync fs filePath then
    (writeFileSync fs filePath (",".intercalate headers ++ "\n" ++ line), filePath)
  else
    (appendFileSync fs filePath line, filePath)

/-! ## Validation -/

/-- The object `validatePayload` returns; an absent property is `none`. -/
structure Validation where
  ok : Bool
  message : Option String
  missing : Option (List String)
  schema : Option Schema
  deriving DecidableEq, Repr

/-- How a call ends: it returns a value, or it throws an error with a message. -/
inductive Outcome (α : Type) where
  | returns (value : α)
  | throws (message : String)
  deriving DecidableEq, Repr

/-- The loop of `validatePayload` (lines 378-387): required keys are visited in declaration
order and a key with no normalised match among the record's keys is pushed onto `missing`. -/
def missingFields (required : List String) (payload : Payload) : List String :=
  required.foldl
    (fun missing k =>
      let found := payload.keys.any fun pk =>
        stripNonAlnum (toLowerCase pk) = stripNonAlnum (toLowerCase k)
      if !found then missing ++ [k] else missing)
    []

/-- The function `validatePayload` (lines 374-389). For a key inherited from `Object.prototype`
the lookup is truthy but has no `required` list, and the `for ... of` loop throws a
`TypeError`. -/
def validatePayload (eventKey : String) (payload : Payload) : Outcome Validation :=
  match lookupSchema eventKey with
  | SchemaLookup.undefined =>
      Outcome.returns { ok := false, message := some "Unknown event key", missing := none,
                        schema := none }
  | SchemaLookup.inherited => Outcome.throws "schema.required is not iterable"
  | SchemaLookup.own schema =>
      let missing := missingFields schema.required payload
      Outcome.returns { ok := missing.length == 0, message := none, missing := some missing,
                        schema := some schema }

/-! ## The register handler -/

/-- What the handler holds in `payload` after lines 395-402. An absent or empty form field
leaves the empty record; otherwise the field goes through `JSON.parse`, and the raw text is
kept when parsing fails. -/
inductive ParsedPayload where
  /-- A plain object, with its properties. -/
  | record (p : Payload)
  /-- A truthy value that is not an object (a non-empty string, a non-zero number, `true`),
  with the index properties `Object.keys` lists for it. Property writes to it are dropped. -/
  | primitive (p : Payload)
  /-- One of the falsy values `null`, `false`, `0` and the empty string. -/
  | falsy
  deriving DecidableEq, Repr

/-- The parts of the multipart request the handler reads: the text fields `eventKey`, `eventId`
and `eventName` of `req.body`, the parsed `payload` field, and `req.file.filename`. -/
structure Request where
  eventKey : Option String
  eventId : Option String
  eventName : Option String
  payload : ParsedPayload
  file : Option String

/-- The response: the HTTP status and the properties of the JSON body. -/
structure Response where
  status : Nat
  ok : Bool
  message : String
  missing : Option (List String)
  file : Option String
  deriving DecidableEq, Repr

/-- Truthiness of an optional text field: present and not empty. -/
def truthyField (a : Option String) : Bool :=
  match a with
  | some s => s ≠ ""
  | none => false

/-- Lines 414-419: the stored upload's file name and the event's display name are written into
the record, each under a camelCase key and under a header-style key. -/
def attachDerived (payload : Payload) (screenshotFilename eventName : String) : Payload :=
  (((payload.set "screenshot" (JSVal.str screenshotFilename)).set "Screenshot"
      (JSVal.str screenshotFilename)).set "eventName" (JSVal.str eventName)).set "Event Name"
      (JSVal.str eventName)

/-- The `POST /register` handler (lines 392-454): the new file state and the response. -/
def register (host : Host) (fs : FS) (req : Request) : FS × Response :=
  let eventKey := if truthyField req.eventKey then req.eventKey else req.eventId
  let eventName := if truthyField req.eventName then req.eventName.getD "" else ""
  if !truthyField eventKey || req.payload = ParsedPayload.falsy then
    (fs, { status := 400, ok := false, message := "Missing eventKey or payload", missing := none,
           file := none })
  else
    let screenshotFilename := req.file.getD ""
    let payload : Payload :=
      match req.payload with
      | ParsedPayload.record p => attachDerived p screenshotFilename eventName
      | ParsedPayload.primitive p => p
      | ParsedPayload.falsy => []
    match validatePayload (eventKey.getD "") payload with
    | Outcome.throws message =>
        (fs, { status := 500, ok := false, message := message, missing := none, file := none })
    | Outcome.returns validation =>
        if !validation.ok then
          (fs, { status := 400, ok := false, message := "Missing fields",
                 missing := validation.missing, file := none })
        else
          match validation.schema with
          | none =>
              (fs, { status := 500, ok := false,
                     message := "Cannot read properties of undefined", missing := none,
                     file := none })
          | some schema =>
              let written := appendRowToCSV host fs schema.file schema.headers payload
              (written.1, { status := 200, ok := true, message := "Registered", missing := none,
                            file := some written.2 })

/-! ## Reference notions of the specification -/

/-- The required keys that no key of the record matches after normalisation, in declaration
order: the list the specification asks the validator to report. -/
def absentKeys (required : List String) (payload : Payload) : List String :=
  required.filter fun k => decide (∀ pk ∈ payload.keys, normalize pk ≠ normalize k)

/-- Undoing the doubling of quotes: a doubled quote stands for one quote, and a quote that is
not doubled is an error. -/
def undoubleQuotes : List Char → Option (List Char)
  | [] => some []
  | [c] => if c = dq then none else some [c]
  | c :: d :: rest =>
      if c = dq then
        if d = dq then (undoubleQuotes rest).map (dq :: ·) else none
      else (undoubleQuotes (d :: rest)).map (c :: ·)

/-- The standard CSV rule for reading one quoted field: strip the enclosing quotes, then replace
each doubled quote by a single quote. A field that is not enclosed in quotes is rejected. -/
def standardCsvUnquote (field : String) : Option String :=
  match field.data with
  | [] => none
  | c :: rest =>
      if c = dq ∧ rest.getLast? = some dq then (undoubleQuotes rest.dropLast).map String.mk
      else none

/-- The characters `a` to `z` and `0` to `9`. -/
def lowerAlnumChars : List Char := "abcdefghijklmnopqrstuvwxyz0123456789".data

/-- Reordering a list by positions: the entries at the listed positions, in the listed order. -/
def pick {α : Type} (positions : List Nat) (xs : List α) : List α :=
  positions.filterMap fun i => xs[i]?

/-- The required keys and record of the validation example: `a`, `b`, `c` are required and the
record has `a` only, among other keys. -/
def abcRecord : Payload := [("z", JSVal.num 7), ("A", JSVal.str "x"), ("y", JSVal.str "")]

/-- The record of the end-to-end scenario. -/
def vedixRecord : Payload :=
  [("teamName", JSVal.str "Alpha"), ("name1", JSVal.str "Asha"), ("usn", JSVal.str "1AB20CS001"),
   ("college", JSVal.str "ABC"), ("phone", JSVal.str "9999999999"),
   ("email", JSVal.str "a@b.com"), ("utrId", JSVal.str "U1"), ("utrNumber", JSVal.str "12345")]

/-- The request of the end-to-end scenario: event `vedix`, the scenario's record, the upload
stored as `1700-shot.png`, and a display name for the event. -/
def vedixRequest (displayName : String) : Request :=
  Request.mk (some "vedix") none (some displayName) (ParsedPayload.record vedixRecord)
    (some "1700-shot.png")

/-- The row the scenario resolves to, for a given first cell. -/
def vedixRow (eventCell : JSVal) : List JSVal :=
  [eventCell, JSVal.str "Alpha", JSVal.str "Asha", JSVal.str "1AB20CS001", JSVal.str "ABC",
   JSVal.str "9999999999", JSVal.str "a@b.com", JSVal.str "U1", JSVal.str "12345",
   JSVal.str "1700-shot.png", JSVal.str ""]

/-- A host for concrete evaluations: a POSIX `path.join` on plain file names. -/
def demoHost : Host := ⟨"/srv/app/csv", fun dir name => dir ++ "/" ++ name⟩

/-- The file state with no files. -/
def noFiles : FS := fun _ => none

/-! ## The handler's local values and runs of requests -/

/-- Line 404 of the handler: `req.body.eventKey || req.body.eventId`. -/
def requestEventKey (req : Request) : Option String :=
  if truthyField req.eventKey then req.eventKey else req.eventId

/-- Line 405 of the handler: `req.body.eventName || ""`. -/
def requestEventName (req : Request) : String :=
  if truthyField req.eventName then req.eventName.getD "" else ""

/-- The value `payload` holds when the handler calls `validatePayload` (line 425): a record
with the upload's file name and the event name attached, or a primitive left as it was. -/
def requestPayload (req : Request) : Payload :=
  match req.payload with
  | ParsedPayload.record p => attachDerived p (req.file.getD "") (requestEventName req)
  | ParsedPayload.primitive p => p
  | ParsedPayload.falsy => []

/-- The file state after the handler has served a list of requests, one after the other. -/
def runRequests (host : Host) (fs : FS) (requests : List Request) : FS :=
  requests.foldl (fun state req => (register host state req).1) fs

/-- The path of the log file of a schema. -/
def logPath (host : Host) (schema : Schema) : String :=
  host.pathJoin host.CSV_DIR schema.file

/-- A log file's content: the header line of a column list followed by the data lines of a
list of records, in order. -/
def logContent (headers : List String) (payloads : List Payload) : String :=
  (payloads.map fun p => csvLine (resolveRow headers p)).foldl (· ++ ·) (headerLine headers)

/-- Every existing file is the log file of a schema and holds that schema's header line
followed by data lines resolved against that schema's columns. -/
def WellFormedLogs (host : Host) (fs : FS) : Prop :=
  ∀ (q content : String), fs q = some content →
    ∃ e ∈ EVENT_SCHEMAS, q = logPath host e.2 ∧
      ∃ payloads : List Payload, content = logContent e.2.headers payloads

/-- The keys the handler writes into every record (lines 415-419). -/
def injectedKeys : List String := ["screenshot", "Screenshot", "eventName", "Event Name"]

/-- The normalised column names that `findValue` treats before its generic lookup: the identity
columns, the event-name column and the screenshot column. -/
def specialForms : List String :=
  ["usnid", "usn", "usnid1", "usnid2", "usnid3", "usnid4", "eventname", "screenshot"]

/-- The column of the schemas that carries a required key. -/
def columnFor (k : String) : String :=
  if k = "teamName" then "Team Name"
  else if k = "name1" then "Name 1"
  else if k = "name2" then "Name 2"
  else if k = "name3" then "Name 3"
  else if k = "name4" then "Name 4"
  else if k = "usn" then "USN/ID"
  else if k = "usn1" then "USN/ID 1"
  else if k = "usn2" then "USN/ID 2"
  else if k = "usn3" then "USN/ID 3"
  else if k = "usn4" then "USN/ID 4"
  else if k = "college" then "College"
  else if k = "phone" then "Phone"
  else if k = "email" then "Email"
  else if k = "utrId" then "UTR ID"
  else if k = "utrNumber" then "UTR Number"
  else k

/-- A request for an event key that has no schema: the scenario's record under the key
`robo-race`. -/
def unknownEventRequest : Request :=
  Request.mk (some "robo-race") none (some "Robo Race") (ParsedPayload.record vedixRecord)
    (some "1700-shot.png")

/-- A request for `vedix` whose record lacks `college` and `email`. -/
def incompleteRequest : Request :=
  Request.mk (some "vedix") none (some "Vedix")
    (ParsedPayload.record
      [("teamName", JSVal.str "Alpha"), ("name1", JSVal.str "Asha"),
       ("usn", JSVal.str "1AB20CS001"), ("phone", JSVal.str "9999999999"),
       ("utrId", JSVal.str "U1"), ("utrNumber", JSVal.str "12345")])
    (some "1700-shot.png")

/-- A request whose event key is a name inherited from `Object.prototype`. -/
def inheritedKeyRequest : Request :=
  Request.mk (some "constructor") none (some "Vedix") (ParsedPayload.record vedixRecord)
    (some "1700-shot.png")

/-- A run of four requests: a registration for `vedix`, a request with missing fields, a
request for an unknown event, and a second registration for `vedix`. -/
def demoRequests : List Request :=
  [vedixRequest "Vedix", incompleteRequest, unknownEventRequest, vedixRequest "Vedix, again"]

/-- The content of `vedix.csv` after `demoRequests`. -/
def demoContent : String :=
  "Event Name,Team Name,Name 1,USN/ID,College,Phone,Email,UTR ID,UTR Number," ++
    "Screenshot,Timestamp\n" ++
    "\"Vedix\",\"Alpha\",\"Asha\",\"1AB20CS001\",\"ABC\",\"9999999999\"," ++
    "\"a@b.com\",\"U1\",\"12345\",\"1700-shot.png\",\"\"\n" ++
    "\"Vedix, again\",\"Alpha\",\"Asha\",\"1AB20CS001\",\"ABC\",\"9999999999\"," ++
    "\"a@b.com\",\"U1\",\"12345\",\"1700-shot.png\",\"\"\n"

/-- A file state with one log file already written. -/
def oneLogFile : FS :=
  fun q => if q = "/srv/app/csv/vedix.csv" then some "Event Name\n\"Vedix\"\n" else none

/-- The required keys that name an identity field. -/
def identityKeys : List String := ["usn", "usn1", "usn2", "usn3", "usn4"]

/-- Every key that some schema requires. -/
def allRequired : List String :=
  ["teamName", "name1", "name2", "name3", "name4", "usn", "usn1", "usn2", "usn3", "usn4",
   "college", "phone", "email", "utrId", "utrNumber"]

/-- The keys of a record that can supply the value of a column: the fallback chain of an
identity column, the two keys of the event name, the key of the screenshot, and for every other
column the keys of the record whose normalised form is the column's. -/
def sourceKeys (payload : Payload) (header : String) : List String :=
  let nh := normalize header
  if nh = "usnid" ∨ nh = "usn" then ["usn", "usn1", "USN"]
  else if nh = "usnid1" then ["usn1", "usn"]
  else if nh = "usnid2" then ["usn2"]
  else if nh = "usnid3" then ["usn3"]
  else if nh = "usnid4" then ["usn4"]
  else if nh = "eventname" then ["eventName", "Event Name"]
  else if nh = "screenshot" then ["screenshot"]
  else payload.keys.filter fun pk => normalize pk = nh

/-- A record keyed by the column names of a schema, every column holding the same value. -/
def headerKeyed (schema : Schema) (v : JSVal) : Payload := schema.headers.map fun h => (h, v)

/-! ## Reading one CSV record -/

/-- The states of the record reader: at the start of a field, inside a bare field, inside a
quoted field, and just after a quote met inside a quoted field. -/
inductive CsvMode where
  | fieldStart
  | bare
  | quoted
  | quoteSeen
  deriving DecidableEq, Repr

/-- The standard reader of one CSV record. Fields are separated by commas and the record ends
at a newline, after which nothing may follow. A field that starts with a quote runs to the next
quote that is not doubled, a doubled quote standing for one quote, and may contain commas and
newlines; a bare field may not contain a quote. `cur` holds the characters of the field being
read and `done` the fields read so far. -/
def readCsv : CsvMode → List Char → List String → List Char → Option (List String)
  | _, _, _, [] => none
  | CsvMode.fieldStart, _, done, c :: cs =>
      if c = dq then readCsv CsvMode.quoted [] done cs
      else if c = Char.ofNat 44 then readCsv CsvMode.fieldStart [] (done ++ [""]) cs
      else if c = Char.ofNat 10 then (if cs = [] then some (done ++ [""]) else none)
      else readCsv CsvMode.bare [c] done cs
  | CsvMode.bare, cur, done, c :: cs =>
      if c = dq then none
      else if c = Char.ofNat 44 then readCsv CsvMode.fieldStart [] (done ++ [String.mk cur]) cs
      else if c = Char.ofNat 10 then (if cs = [] then some (done ++ [String.mk cur]) else none)
      else readCsv CsvMode.bare (cur ++ [c]) done cs
  | CsvMode.quoted, cur, done, c :: cs =>
      if c = dq then readCsv CsvMode.quoteSeen cur done cs
      else readCsv CsvMode.quoted (cur ++ [c]) done cs
  | CsvMode.quoteSeen, cur, done, c :: cs =>
      if c = dq then readCsv CsvMode.quoted (cur ++ [dq]) done cs
      else if c = Char.ofNat 44 then readCsv CsvMode.fieldStart [] (done ++ [String.mk cur]) cs
      else if c = Char.ofNat 10 then (if cs = [] then some (done ++ [String.mk cur]) else none)
      else none

/-- The fields of one newline-terminated CSV record, under standard CSV quoting. -/
def parseCsvRecord (line : String) : Option (List String) :=
  readCsv CsvMode.fieldStart [] [] line.data

/-! ## Validation reports the missing required keys (C1) -/

theorem absentKeys_cons (k : String) (ks : List String) (payload : Payload) :
    absentKeys (k :: ks) payload =
      if ∀ pk ∈ payload.keys, normalize pk ≠ normalize k then k :: absentKeys ks payload
      else absentKeys ks payload := by
  by_cases h : ∀ pk ∈ payload.keys, normalize pk ≠ normalize k
  · rw [if_pos h]
    unfold absentKeys
    rw [List.filter_cons_of_pos]
    exact decide_eq_true h
  · rw [if_neg h]
    unfold absentKeys
    rw [List.filter_cons_of_neg]
    exact fun hd => h (of_decide_eq_true hd)

theorem missingFields_loop (payload : Payload) (required acc : List String) :
    required.foldl
      (fun missing k =>
        let found := payload.keys.any fun pk =>
          stripNonAlnum (toLowerCase pk) = stripNonAlnum (toLowerCase k)
        if !found then missing ++ [k] else missing)
      acc = acc ++ absentKeys required payload := by
  induction required generalizing acc with
  | nil => simp [absentKeys]
  | cons k ks ih =>
    simp only [List.foldl_cons, ih]
    by_cases hk : ∀ pk ∈ payload.keys, normalize pk ≠ normalize k
    · have hany : (payload.keys.any fun pk =>
          decide (stripNonAlnum (toLowerCase pk) = stripNonAlnum (toLowerCase k))) = false := by
        rw [List.any_eq_false]
        intro pk hpk
        simpa [normalize] using hk pk hpk
      rw [absentKeys_cons, if_pos hk]
      simp [hany]
    · have hany : (payload.keys.any fun pk =>
          decide (stripNonAlnum (toLowerCase pk) = stripNonAlnum (toLowerCase k))) = true := by
        rw [List.any_eq_true]
        have hk2 := hk
        push_neg at hk2
        obtain ⟨pk, hpk, he⟩ := hk2
        exact ⟨pk, hpk, by simpa [normalize] using he⟩
      rw [absentKeys_cons, if_neg hk]
      simp [hany]

theorem missingFields_eq_absentKeys (required : List String) (payload : Payload) :
    missingFields required payload = absentKeys required payload := by
  unfold missingFields
  rw [missingFields_loop]
  simp

theorem absentKeys_perm (required : List String) (p q : Payload) (h : q.Perm p) :
    absentKeys required q = absentKeys required p := by
  unfold absentKeys
  apply List.filter_congr
  intro k _
  have hm : ∀ pk, pk ∈ Payload.keys q ↔ pk ∈ Payload.keys p := fun pk =>
    (List.Perm.map Prod.fst h).mem_iff
  simp only [hm]

/-- C1: for a registered event, `validatePayload` returns as `missing` exactly the required keys
that no key of the record matches after normalisation, in declaration order; `ok` is true
exactly when that list is empty; and a record with the same properties in another order gets the
same result. -/
theorem validatePayload_reports_absent_keys (eventKey : String) (schema : Schema)
    (payload : Payload) (h : registered eventKey schema) :
    validatePayload eventKey payload =
        Outcome.returns
          { ok := decide (absentKeys schema.required payload = [])
            message := none
            missing := some (absentKeys schema.required payload)
            schema := some schema } ∧
      (absentKeys schema.required payload).Sublist schema.required ∧
      ∀ reordered : Payload, reordered.Perm payload →
        validatePayload eventKey reordered = validatePayload eventKey payload := by
  unfold registered at h
  refine ⟨?_, List.filter_sublist _, ?_⟩
  · simp only [validatePayload, h, missingFields_eq_absentKeys]
    congr 2
    cases absentKeys schema.required payload <;> simp
  · intro reordered hperm
    simp only [validatePayload, h, missingFields_eq_absentKeys,
      absentKeys_perm schema.required payload reordered hperm]

/-- Witness for C1: event `it-quiz` and a record, given in two orders, that lacks `usn2` and
`email`. -/
theorem validatePayload_reports_absent_keys_witness :
    validatePayload "it-quiz"
        [("Team Name", JSVal.str "T"), ("name1", JSVal.str "A"), ("USN1", JSVal.str "1"),
         ("name_2", JSVal.str ""), ("college", JSVal.str "C"), ("phone", JSVal.num 5)] =
      Outcome.returns
        { ok := false
          message := none
          missing := some ["usn2", "email"]
          schema := some { file := "it_quiz.csv"
                           headers := ["Event Name", "Team Name", "Name 1", "USN/ID 1", "Name 2",
                                       "USN/ID 2", "College", "Phone", "Email", "Screenshot",
                                       "Timestamp"]
                           required := ["teamName", "name1", "usn1", "name2", "usn2", "college",
                                        "phone", "email"] } } ∧
    validatePayload "it-quiz"
        [("phone", JSVal.num 5), ("college", JSVal.str "C"), ("name_2", JSVal.str ""),
         ("USN1", JSVal.str "1"), ("name1", JSVal.str "A"), ("Team Name", JSVal.str "T")] =
      validatePayload "it-quiz"
        [("Team Name", JSVal.str "T"), ("name1", JSVal.str "A"), ("USN1", JSVal.str "1"),
         ("name_2", JSVal.str ""), ("college", JSVal.str "C"), ("phone", JSVal.num 5)] :=
  have key := validatePayload_reports_absent_keys "it-quiz"
    { file := "it_quiz.csv"
      headers := ["Event Name", "Team Name", "Name 1", "USN/ID 1", "Name 2", "USN/ID 2",
                  "College", "Phone", "Email", "Screenshot", "Timestamp"]
      required := ["teamName", "name1", "usn1", "name2", "usn2", "college", "phone", "email"] }
    [("Team Name", JSVal.str "T"), ("name1", JSVal.str "A"), ("USN1", JSVal.str "1"),
     ("name_2", JSVal.str ""), ("college", JSVal.str "C"), ("phone", JSVal.num 5)]
    (by decide)
  ⟨key.1.trans (by decide), key.2.2 _ (by decide)⟩

/-- The example of the specification: required `a`, `b`, `c` and a record that has `a` only
(under the key `A`, between other keys) give `missing = [b, c]`. -/
theorem missingFields_abc : missingFields ["a", "b", "c"] abcRecord = ["b", "c"] := by decide

/-! ## Rows are positional (C2) and identity columns are aliased (C3, C4) -/

theorem pick_map {α β : Type} (f : α → β) (xs : List α) (positions : List Nat) :
    pick positions (xs.map f) = (pick positions xs).map f := by
  induction positions with
  | nil => rfl
  | cons i rest ih =>
    unfold pick at ih ⊢
    rw [List.filterMap_cons, List.filterMap_cons, List.getElem?_map]
    cases xs[i]? with
    | none => simpa using ih
    | some x => simpa using ih

theorem zip_resolveRow (headers : List String) (payload : Payload) :
    headers.zip (resolveRow headers payload) = headers.map fun h => (h, findValue payload h) := by
  induction headers with
  | nil => rfl
  | cons h rest ih =>
    unfold resolveRow at ih ⊢
    rw [List.map_cons, List.zip_cons_cons, ih, List.map_cons]

/-- C2: the row of `appendRowToCSV` has one entry per column, the entry at each position is
`findValue` of the column at that position, and resolving a reordered column list gives the
row reordered in the same way: picking columns by any list of positions commutes with
resolution, and a permutation of the columns permutes the (column, value) pairs without changing
any of them. -/
theorem resolveRow_positional (headers : List String) (payload : Payload) :
    (resolveRow headers payload).length = headers.length ∧
      (∀ i : Nat, (resolveRow headers payload)[i]? = headers[i]?.map (findValue payload)) ∧
      (∀ positions : List Nat,
        resolveRow (pick positions headers) payload =
          pick positions (resolveRow headers payload)) ∧
      ∀ reordered : List String, reordered.Perm headers →
        (reordered.zip (resolveRow reordered payload)).Perm
          (headers.zip (resolveRow headers payload)) := by
  refine ⟨by simp [resolveRow], fun i => by simp [resolveRow], fun positions => ?_,
    fun reordered hperm => ?_⟩
  · unfold resolveRow
    rw [pick_map]
  · rw [zip_resolveRow, zip_resolveRow]
    exact hperm.map _

/-- Witness for C2: four columns of `vedix` and the same columns in another order. -/
theorem resolveRow_positional_witness :
    (["Phone", "Team Name", "College", "USN/ID"].zip
        (resolveRow ["Phone", "Team Name", "College", "USN/ID"]
          [("college", JSVal.str "ABC"), ("usn", JSVal.str "1AB"),
           ("teamName", JSVal.str "Alpha")])).Perm
      (["Team Name", "USN/ID", "College", "Phone"].zip
        (resolveRow ["Team Name", "USN/ID", "College", "Phone"]
          [("college", JSVal.str "ABC"), ("usn", JSVal.str "1AB"),
           ("teamName", JSVal.str "Alpha")])) :=
  (resolveRow_positional ["Team Name", "USN/ID", "College", "Phone"]
    [("college", JSVal.str "ABC"), ("usn", JSVal.str "1AB"),
     ("teamName", JSVal.str "Alpha")]).2.2.2
    ["Phone", "Team Name", "College", "USN/ID"] (by decide)

/-- Reordering the columns of `vedix` by a permutation of positions reorders the row alike. -/
theorem resolveRow_reordered_example :
    resolveRow (pick [3, 0, 2, 1] ["Team Name", "USN/ID", "College", "Phone"])
        [("college", JSVal.str "ABC"), ("usn", JSVal.str "1AB"), ("teamName", JSVal.str "Alpha")] =
      [JSVal.str "", JSVal.str "Alpha", JSVal.str "ABC", JSVal.str "1AB"] := by decide

/-- C3: column `USN/ID 1` with the record `usn1: X1, usn: Y` resolves to `X1`; column `USN/ID`
with the record `usn: Y` resolves to `Y`; column `USN/ID` with the record `usn1: X1` resolves
to `X1`. -/
theorem findValue_identity_aliasing :
    findValue [("usn1", JSVal.str "X1"), ("usn", JSVal.str "Y")] "USN/ID 1" = JSVal.str "X1" ∧
      findValue [("usn", JSVal.str "Y")] "USN/ID" = JSVal.str "Y" ∧
      findValue [("usn1", JSVal.str "X1")] "USN/ID" = JSVal.str "X1" := by
  decide

theorem findValue_usnid1 (payload : Payload) (header : String)
    (h : normalize header = "usnid1") :
    findValue payload header =
      ((payload.get "usn1").or (payload.get "usn")).or (JSVal.str "") := by
  unfold findValue
  simp [h]

theorem findValue_usnid2 (payload : Payload) (header : String)
    (h : normalize header = "usnid2") :
    findValue payload header = (payload.get "usn2").or (JSVal.str "") := by
  unfold findValue
  simp [h]

theorem findValue_usnid3 (payload : Payload) (header : String)
    (h : normalize header = "usnid3") :
    findValue payload header = (payload.get "usn3").or (JSVal.str "") := by
  unfold findValue
  simp [h]

theorem findValue_usnid4 (payload : Payload) (header : String)
    (h : normalize header = "usnid4") :
    findValue payload header = (payload.get "usn4").or (JSVal.str "") := by
  unfold findValue
  simp [h]

/-- C4, as stated, fails: with `usn1` present and empty, column `USN/ID 1` resolves to the
unindexed `usn` value and not to the record's `usn1` value; with `usn2` present and equal to
the number 0, column `USN/ID 2` resolves to the empty string and not to the record's `usn2`
value. -/
theorem findValue_indexed_present_falsy :
    Payload.get [("usn1", JSVal.str ""), ("usn", JSVal.str "Y")] "usn1" = JSVal.str "" ∧
      findValue [("usn1", JSVal.str ""), ("usn", JSVal.str "Y")] "USN/ID 1" = JSVal.str "Y" ∧
      Payload.get [("usn2", JSVal.num 0)] "usn2" = JSVal.num 0 ∧
      findValue [("usn2", JSVal.num 0)] "USN/ID 2" = JSVal.str "" ∧
      csvLine [findValue [("usn2", JSVal.num 0)] "USN/ID 2"] ≠
        csvLine [Payload.get [("usn2", JSVal.num 0)] "usn2"] := by
  decide

/-- C4, amended: for n in 2, 3, 4 the column `USN/ID n` resolves to the record's own `usn{n}`
value when that value is truthy and to the empty string otherwise, whatever the record holds
under `usn` or another index; the column `USN/ID 1` resolves to `usn1` when truthy, otherwise to
the unindexed `usn` value when truthy, otherwise to the empty string. -/
theorem findValue_indexed_identity (payload : Payload) :
    findValue payload "USN/ID 2" =
        (if (payload.get "usn2").truthy then payload.get "usn2" else JSVal.str "") ∧
      findValue payload "USN/ID 3" =
        (if (payload.get "usn3").truthy then payload.get "usn3" else JSVal.str "") ∧
      findValue payload "USN/ID 4" =
        (if (payload.get "usn4").truthy then payload.get "usn4" else JSVal.str "") ∧
      findValue payload "USN/ID 1" =
        (if (payload.get "usn1").truthy then payload.get "usn1"
         else if (payload.get "usn").truthy then payload.get "usn" else JSVal.str "") := by
  refine ⟨?_, ?_, ?_, ?_⟩
  · rw [findValue_usnid2 payload _ (by decide)]
    rfl
  · rw [findValue_usnid3 payload _ (by decide)]
    rfl
  · rw [findValue_usnid4 payload _ (by decide)]
    rfl
  · rw [findValue_usnid1 payload _ (by decide)]
    unfold JSVal.or
    split <;> simp_all

/-! ## Quoting round trip (C5) -/

theorem undoubleQuotes_cons_of_ne (c : Char) (rest : List Char) (h : c ≠ dq) :
    undoubleQuotes (c :: rest) = (undoubleQuotes rest).map (c :: ·) := by
  cases rest with
  | nil => simp [undoubleQuotes, h]
  | cons d rest => simp [undoubleQuotes, h]

theorem undoubleQuotes_doubled (rest : List Char) :
    undoubleQuotes (dq :: dq :: rest) = (undoubleQuotes rest).map (dq :: ·) := by
  simp [undoubleQuotes]

theorem undoubleQuotes_escape (l : List Char) :
    undoubleQuotes (l.flatMap fun c => if c = dq then [dq, dq] else [c]) = some l := by
  induction l with
  | nil => simp [undoubleQuotes]
  | cons c l ih =>
    rw [List.flatMap_cons]
    by_cases h : c = dq
    · subst h
      simp only [if_true, List.cons_append, List.nil_append]
      rw [undoubleQuotes_doubled, ih]
      rfl
    · simp only [if_neg h, List.cons_append, List.nil_append]
      rw [undoubleQuotes_cons_of_ne _ _ h, ih]
      rfl

/-- C5: for every string `v`, the field written for `v` (by the data line of `appendRowToCSV`
and by `csvSafe`) is `v` with every double quote doubled, wrapped in one pair of double quotes,
and reading that field with the standard CSV rule gives back `v`. -/
theorem quoted_field_round_trip (v : String) :
    csvLine [JSVal.str v] = wrapQuotes (escapeQuotes v) ++ "\n" ∧
      csvSafe (JSVal.str v) = wrapQuotes (escapeQuotes v) ∧
      (wrapQuotes (escapeQuotes v)).data =
        dq :: (v.data.flatMap fun c => if c = dq then [dq, dq] else [c]) ++ [dq] ∧
      standardCsvUnquote (wrapQuotes (escapeQuotes v)) = some v := by
  refine ⟨?_, ?_, rfl, ?_⟩
  · simp [csvLine, String.intercalate, String.intercalate.go, JSVal.toStr]
  · simp [csvSafe, JSVal.toStr]
  · simp only [standardCsvUnquote, wrapQuotes, escapeQuotes]
    simp [undoubleQuotes_escape]

/-- The example of the specification: the value `Joe's "Best" College`. -/
theorem quoted_field_example :
    wrapQuotes (escapeQuotes "Joe's \"Best\" College") = "\"Joe's \"\"Best\"\" College\"" ∧
      standardCsvUnquote "\"Joe's \"\"Best\"\" College\"" = some "Joe's \"Best\" College" := by
  decide

/-! ## The effect of `appendRowToCSV` on the file state (C6, C7) -/

theorem appendRowToCSV_path (host : Host) (fs : FS) (filename : String) (headers : List String)
    (payload : Payload) :
    (appendRowToCSV host fs filename headers payload).2 = host.pathJoin host.CSV_DIR filename := by
  unfold appendRowToCSV
  simp only []
  split <;> rfl

theorem appendRowToCSV_new (host : Host) (fs : FS) (filename : String) (headers : List String)
    (payload : Payload) (h : fs (host.pathJoin host.CSV_DIR filename) = none) :
    (appendRowToCSV host fs filename headers payload).1 =
      writeFileSync fs (host.pathJoin host.CSV_DIR filename)
        (headerLine headers ++ csvLine (resolveRow headers payload)) := by
  unfold appendRowToCSV
  simp [existsSync, h, headerLine]

theorem appendRowToCSV_existing (host : Host) (fs : FS) (filename : String)
    (headers : List String) (payload : Payload) (content : String)
    (h : fs (host.pathJoin host.CSV_DIR filename) = some content) :
    (appendRowToCSV host fs filename headers payload).1 =
      writeFileSync fs (host.pathJoin host.CSV_DIR filename)
        (content ++ csvLine (resolveRow headers payload)) := by
  unfold appendRowToCSV
  simp only [existsSync, h, Option.isSome_some, Bool.not_true, Bool.false_eq_true, if_false]
  funext q
  simp [appendFileSync, writeFileSync, h]

/-- C6: two calls of `appendRowToCSV` in sequence, with the same file name and column list, on
a file that does not exist: after the first call the file is the header line followed by the
first data line; after the second call it is that same content followed by the second data
line, so the header is there once, unchanged, with two data lines in call order behind it. -/
theorem appendRowToCSV_twice (host : Host) (fs : FS) (filename : String)
    (headers : List String) (first second : Payload)
    (h : fs (host.pathJoin host.CSV_DIR filename) = none) :
    (appendRowToCSV host fs filename headers first).1 (host.pathJoin host.CSV_DIR filename) =
        some (",".intercalate headers ++ "\n" ++ csvLine (resolveRow headers first)) ∧
      (appendRowToCSV host (appendRowToCSV host fs filename headers first).1 filename headers
          second).1 (host.pathJoin host.CSV_DIR filename) =
        some (",".intercalate headers ++ "\n" ++ csvLine (resolveRow headers first) ++
          csvLine (resolveRow headers second)) := by
  have h1 : (appendRowToCSV host fs filename headers first).1
      (host.pathJoin host.CSV_DIR filename) =
      some (",".intercalate headers ++ "\n" ++ csvLine (resolveRow headers first)) := by
    rw [appendRowToCSV_new host fs filename headers first h]
    simp [writeFileSync, headerLine]
  refine ⟨h1, ?_⟩
  rw [appendRowToCSV_existing host _ filename headers second _ h1]
  simp [writeFileSync]

/-- Witness for C6: two registrations written to `demo.csv`, absent at first. -/
theorem appendRowToCSV_twice_witness :
    (appendRowToCSV demoHost
        (appendRowToCSV demoHost noFiles "demo.csv" ["Name 1", "USN/ID 2", "College"]
          [("name1", JSVal.str "Asha"), ("usn2", JSVal.num 42)]).1
        "demo.csv" ["Name 1", "USN/ID 2", "College"]
        [("college", JSVal.str "A \"B\" C"), ("name1", JSVal.str "Ravi")]).1
      "/srv/app/csv/demo.csv" =
    some "Name 1,USN/ID 2,College\n\"Asha\",\"42\",\"\"\n\"Ravi\",\"\",\"A \"\"B\"\" C\"\n" :=
  (appendRowToCSV_twice demoHost noFiles "demo.csv" ["Name 1", "USN/ID 2", "College"]
    [("name1", JSVal.str "Asha"), ("usn2", JSVal.num 42)]
    [("college", JSVal.str "A \"B\" C"), ("name1", JSVal.str "Ravi")] rfl).2.trans (by decide)

/-- C7: `appendRowToCSV` returns the joined path and changes the file state at that path only.
When the file does not exist its content becomes the bare column names joined by commas, a
newline, then the data line; when it exists with content `c` its content becomes `c` followed
by the data line. The data line is the resolved values, each converted to a string, its quotes
doubled, wrapped in quotes, joined by commas, with a newline at the end. -/
theorem appendRowToCSV_effect (host : Host) (fs : FS) (filename : String)
    (headers : List String) (payload : Payload) :
    (appendRowToCSV host fs filename headers payload).2 = host.pathJoin host.CSV_DIR filename ∧
      ∀ q : String,
        (appendRowToCSV host fs filename headers payload).1 q =
          if q = host.pathJoin host.CSV_DIR filename then
            some
              ((match fs (host.pathJoin host.CSV_DIR filename) with
                | none => ",".intercalate headers ++ "\n"
                | some c => c) ++
                (",".intercalate
                    ((headers.map (findValue payload)).map fun v =>
                      wrapQuotes (escapeQuotes v.toStr)) ++ "\n"))
          else fs q := by
  refine ⟨appendRowToCSV_path host fs filename headers payload, fun q => ?_⟩
  cases hfs : fs (host.pathJoin host.CSV_DIR filename) with
  | none =>
    rw [appendRowToCSV_new host fs filename headers payload hfs]
    simp [writeFileSync, headerLine, csvLine, resolveRow]
  | some c =>
    rw [appendRowToCSV_existing host fs filename headers payload c hfs]
    simp [writeFileSync, csvLine, resolveRow]

/-! ## Normalisation (C8, C9) -/

theorem toLowerCaseChar_of_isLowerAlnum (c : Char) (h : isLowerAlnum c = true) :
    toLowerCaseChar c = [c] := by
  unfold isLowerAlnum at h
  simp only [Bool.or_eq_true, Bool.and_eq_true, decide_eq_true_eq] at h
  unfold toLowerCaseChar
  rw [if_neg (by omega), if_neg (by omega), if_neg (by omega)]

theorem flatMap_toLowerCaseChar_of_all (l : List Char) (h : ∀ c ∈ l, isLowerAlnum c = true) :
    l.flatMap toLowerCaseChar = l := by
  induction l with
  | nil => rfl
  | cons c l ih =>
    rw [List.flatMap_cons, toLowerCaseChar_of_isLowerAlnum c (h c (List.mem_cons_self c l)),
      ih fun d hd => h d (List.mem_cons_of_mem c hd)]
    rfl

theorem normalize_data (s : String) :
    (normalize s).data = (s.data.flatMap toLowerCaseChar).filter isLowerAlnum := rfl

theorem isLowerAlnum_of_mem_normalize (s : String) (c : Char) (h : c ∈ (normalize s).data) :
    isLowerAlnum c = true := by
  rw [normalize_data] at h
  exact (List.mem_filter.mp h).2

theorem normalize_of_all (s : String) (h : ∀ c ∈ s.data, isLowerAlnum c = true) :
    normalize s = s := by
  have hd : (normalize s).data = s.data := by
    rw [normalize_data, flatMap_toLowerCaseChar_of_all s.data h]
    exact List.filter_eq_self.mpr h
  exact String.ext hd

theorem mem_lowerAlnumChars_of_isLowerAlnum (c : Char) (h : isLowerAlnum c = true) :
    c ∈ lowerAlnumChars := by
  have hc : c = Char.ofNat c.toNat := (Char.ofNat_toNat c).symm
  unfold isLowerAlnum at h
  simp only [Bool.or_eq_true, Bool.and_eq_true, decide_eq_true_eq] at h
  generalize c.toNat = n at hc h
  subst hc
  rcases h with ⟨h1, h2⟩ | ⟨h1, h2⟩ <;> interval_cases n <;> decide

theorem isLowerAlnum_of_mem_lowerAlnumChars :
    ∀ c ∈ lowerAlnumChars, isLowerAlnum c = true := by
  decide

/-- C8: normalisation is idempotent, for the `normalize` helper of the row resolver and for the
expression `toLowerCase().replace(/[^a-z0-9]/g, "")` that `validatePayload` applies inline. -/
theorem normalize_idempotent (s : String) :
    normalize (normalize s) = normalize s ∧
      stripNonAlnum (toLowerCase (stripNonAlnum (toLowerCase s))) =
        stripNonAlnum (toLowerCase s) :=
  ⟨normalize_of_all _ (isLowerAlnum_of_mem_normalize s),
   normalize_of_all _ (isLowerAlnum_of_mem_normalize s)⟩

/-- C9: `normalize s` is the lower-cased `s` from which every character other than `a`-`z` and
`0`-`9` has been deleted: it keeps exactly those characters of the lower-cased string, in their
order, and so consists of such characters only. In particular `USN/ID 1`, `usn_id_1` and
`UsnId1` all normalise to `usnid1`. -/
theorem normalize_lowercase_alphanumeric (s : String) :
    (normalize s).data = (toLowerCase s).data.filter (fun c => decide (c ∈ lowerAlnumChars)) ∧
      (normalize s).data.Sublist (toLowerCase s).data ∧
      (normalize s).data.all (fun c => decide (c ∈ lowerAlnumChars)) = true ∧
      normalize "USN/ID 1" = "usnid1" ∧
      normalize "usn_id_1" = "usnid1" ∧
      normalize "UsnId1" = "usnid1" := by
  refine ⟨?_, List.filter_sublist _, ?_, by decide, by decide, by decide⟩
  · show (toLowerCase s).data.filter isLowerAlnum = _
    apply List.filter_congr
    intro c _
    by_cases hc : isLowerAlnum c = true
    · simp [hc, mem_lowerAlnumChars_of_isLowerAlnum c hc]
    · have hn : c ∉ lowerAlnumChars := by
        intro hm
        exact hc (isLowerAlnum_of_mem_lowerAlnumChars c hm)
      simp [hc, hn]
  · rw [List.all_eq_true]
    intro c hc
    exact decide_eq_true (mem_lowerAlnumChars_of_isLowerAlnum c (isLowerAlnum_of_mem_normalize s c hc))

/-! ## The end-to-end scenario (C10) -/

theorem or_str_self (d : String) :
    ((JSVal.str d).or (JSVal.str d)).or (JSVal.str "") = JSVal.str d := by
  by_cases h : d = ""
  · subst h
    rfl
  · simp [JSVal.or, JSVal.truthy, h]

theorem vedix_eventName (d : String) :
    (if truthyField (some d) then (some d).getD "" else "") = d := by
  by_cases h : d = ""
  · subst h
    rfl
  · simp [truthyField, h]

theorem vedix_validates (d : String) :
    validatePayload "vedix" (attachDerived vedixRecord "1700-shot.png" d) =
      Outcome.returns
        { ok := true, message := none, missing := some [],
          schema := some { file := "vedix.csv", headers := soloHeaders,
                           required := soloRequired } } := by
  rfl

theorem vedix_resolves (d : String) :
    resolveRow soloHeaders (attachDerived vedixRecord "1700-shot.png" d) =
      vedixRow (JSVal.str d) := by
  have h : resolveRow soloHeaders (attachDerived vedixRecord "1700-shot.png" d) =
      vedixRow (((JSVal.str d).or (JSVal.str d)).or (JSVal.str "")) := by
    rfl
  rw [h, or_str_self]

theorem register_vedix_eq (host : Host) (fs : FS) (d : String) :
    register host fs (vedixRequest d) =
      ((appendRowToCSV host fs "vedix.csv" soloHeaders
          (attachDerived vedixRecord "1700-shot.png" d)).1,
       { status := 200, ok := true, message := "Registered", missing := none,
         file := some (appendRowToCSV host fs "vedix.csv" soloHeaders
          (attachDerived vedixRecord "1700-shot.png" d)).2 }) := by
  have hk : truthyField (some "vedix") = true := by decide
  unfold register vedixRequest
  simp only [hk, vedix_eventName, if_true]
  have hp : (ParsedPayload.record vedixRecord = ParsedPayload.falsy) = False := by simp
  simp only [hp, Option.getD_some, vedix_validates]
  simp

/-- C10, as stated, fails in its last cell: in the scenario (display name `Vedix`) the row
ends with the empty string, so no non-empty timestamp stands in the Timestamp column, and the
data line written to `vedix.csv` ends with an empty quoted field. -/
theorem vedix_row_without_timestamp :
    (resolveRow soloHeaders (attachDerived vedixRecord "1700-shot.png" "Vedix")).getLast? =
        some (JSVal.str "") ∧
      (¬ ∃ ts : String, ts ≠ "" ∧
        resolveRow soloHeaders (attachDerived vedixRecord "1700-shot.png" "Vedix") =
          [JSVal.str "Vedix", JSVal.str "Alpha", JSVal.str "Asha", JSVal.str "1AB20CS001",
           JSVal.str "ABC", JSVal.str "9999999999", JSVal.str "a@b.com", JSVal.str "U1",
           JSVal.str "12345", JSVal.str "1700-shot.png", JSVal.str ts]) ∧
      (register demoHost noFiles (vedixRequest "Vedix")).1 "/srv/app/csv/vedix.csv" =
        some ("Event Name,Team Name,Name 1,USN/ID,College,Phone,Email,UTR ID,UTR Number," ++
          "Screenshot,Timestamp\n" ++
          "\"Vedix\",\"Alpha\",\"Asha\",\"1AB20CS001\",\"ABC\",\"9999999999\"," ++
          "\"a@b.com\",\"U1\",\"12345\",\"1700-shot.png\",\"\"\n") := by
  refine ⟨by decide, ?_, by rfl⟩
  rintro ⟨ts, hts, hrow⟩
  rw [vedix_resolves] at hrow
  simp only [vedixRow, List.cons.injEq, JSVal.str.injEq, true_and, and_true] at hrow
  exact hts hrow.symm

/-- C10, amended: in the scenario, with any display name `d` for the event, validation passes,
the resolved row in the `vedix` column order is `d`, Alpha, Asha, 1AB20CS001, ABC, 9999999999,
a@b.com, U1, 12345, 1700-shot.png and the empty string in the Timestamp column, and when
`vedix.csv` does not exist the handler answers 200 with the file path and leaves the file
holding the header line followed by the one quoted data line. -/
theorem register_vedix_scenario (host : Host) (fs : FS) (d : String)
    (h : fs (host.pathJoin host.CSV_DIR "vedix.csv") = none) :
    validatePayload "vedix" (attachDerived vedixRecord "1700-shot.png" d) =
        Outcome.returns
          { ok := true, message := none, missing := some [],
            schema := some { file := "vedix.csv", headers := soloHeaders,
                             required := soloRequired } } ∧
      resolveRow soloHeaders (attachDerived vedixRecord "1700-shot.png" d) =
        [JSVal.str d, JSVal.str "Alpha", JSVal.str "Asha", JSVal.str "1AB20CS001", JSVal.str "ABC",
         JSVal.str "9999999999", JSVal.str "a@b.com", JSVal.str "U1", JSVal.str "12345",
         JSVal.str "1700-shot.png", JSVal.str ""] ∧
      (register host fs (vedixRequest d)).2 =
        { status := 200, ok := true, message := "Registered", missing := none,
          file := some (host.pathJoin host.CSV_DIR "vedix.csv") } ∧
      (register host fs (vedixRequest d)).1 (host.pathJoin host.CSV_DIR "vedix.csv") =
        some ("Event Name,Team Name,Name 1,USN/ID,College,Phone,Email,UTR ID,UTR Number," ++
          "Screenshot,Timestamp\n" ++
          csvLine
            [JSVal.str d, JSVal.str "Alpha", JSVal.str "Asha", JSVal.str "1AB20CS001", JSVal.str "ABC",
         JSVal.str "9999999999", JSVal.str "a@b.com", JSVal.str "U1", JSVal.str "12345",
         JSVal.str "1700-shot.png", JSVal.str ""]) := by
  refine ⟨vedix_validates d, vedix_resolves d, ?_, ?_⟩
  · rw [register_vedix_eq, appendRowToCSV_path]
  · rw [register_vedix_eq, appendRowToCSV_new host fs _ _ _ h, vedix_resolves]
    simp only [writeFileSync, if_true]
    rfl

/-- Witness for C10: display name `Vedix`, no file yet. -/
theorem register_vedix_scenario_witness :
    (register demoHost noFiles (vedixRequest "Vedix")).2 =
      { status := 200, ok := true, message := "Registered", missing := none,
        file := some "/srv/app/csv/vedix.csv" } :=
  (register_vedix_scenario demoHost noFiles "Vedix" rfl).2.2.1

/-! ## Unknown event keys (C11) -/

theorem lookupSchema_own_mem (eventKey : String) (schema : Schema)
    (h : lookupSchema eventKey = SchemaLookup.own schema) :
    (eventKey, schema) ∈ EVENT_SCHEMAS := by
  unfold lookupSchema at h
  cases hf : EVENT_SCHEMAS.find? (fun e => e.1 = eventKey) with
  | none =>
    rw [hf] at h
    simp only [] at h
    split at h <;> cases h
  | some e =>
    rw [hf] at h
    simp only [SchemaLookup.own.injEq] at h
    have hkey : e.1 = eventKey := by simpa using List.find?_some hf
    have hmem := List.mem_of_find?_eq_some hf
    rw [← hkey, ← h]
    exact hmem

theorem validatePayload_of_undefined (eventKey : String) (payload : Payload)
    (h : lookupSchema eventKey = SchemaLookup.undefined) :
    validatePayload eventKey payload =
      Outcome.returns
        { ok := false, message := some "Unknown event key", missing := none, schema := none } := by
  simp only [validatePayload, h]

theorem validatePayload_of_inherited (eventKey : String) (payload : Payload)
    (h : lookupSchema eventKey = SchemaLookup.inherited) :
    validatePayload eventKey payload = Outcome.throws "schema.required is not iterable" := by
  simp only [validatePayload, h]

theorem validatePayload_of_own (eventKey : String) (schema : Schema) (payload : Payload)
    (h : lookupSchema eventKey = SchemaLookup.own schema) :
    validatePayload eventKey payload =
      Outcome.returns
        { ok := decide (absentKeys schema.required payload = [])
          message := none
          missing := some (absentKeys schema.required payload)
          schema := some schema } := by
  simp only [validatePayload, h, missingFields_eq_absentKeys]
  congr 2
  cases absentKeys schema.required payload <;> simp

/-- C11 at the failing input: the key `constructor` has no entry in `EVENT_SCHEMAS`, yet for
every record `validatePayload` does not return the unknown-event result: the lookup finds the
member inherited from `Object.prototype` and the loop over its absent `required` list throws.
The same holds for each of the inherited names. -/
theorem validatePayload_inherited_key_throws (payload : Payload) :
    EVENT_SCHEMAS.find? (fun e => e.1 = "constructor") = none ∧
      validatePayload "constructor" payload =
        Outcome.throws "schema.required is not iterable" ∧
      validatePayload "constructor" payload ≠
        Outcome.returns
          { ok := false, message := some "Unknown event key", missing := none,
            schema := none } ∧
      objectPrototypeKeys.all (fun k =>
        decide (EVENT_SCHEMAS.find? (fun e => e.1 = k) = none ∧
          validatePayload k payload = Outcome.throws "schema.required is not iterable")) = true := by
  have hall : ∀ k ∈ objectPrototypeKeys, lookupSchema k = SchemaLookup.inherited := by decide
  refine ⟨by decide, validatePayload_of_inherited _ _ (by decide), ?_, ?_⟩
  · rw [validatePayload_of_inherited _ _ (by decide)]
    exact fun h => Outcome.noConfusion h
  · rw [List.all_eq_true]
    intro k hk
    have hnone : ∀ k ∈ objectPrototypeKeys,
        EVENT_SCHEMAS.find? (fun e => e.1 = k) = none := by decide
    exact decide_eq_true ⟨hnone k hk, validatePayload_of_inherited _ _ (hall k hk)⟩

/-! ## What the handler does with a request (C12, C13) -/

theorem register_eq (host : Host) (fs : FS) (req : Request) :
    register host fs req =
      if !truthyField (requestEventKey req) || decide (req.payload = ParsedPayload.falsy) then
        (fs, { status := 400, ok := false, message := "Missing eventKey or payload",
               missing := none, file := none })
      else
        match validatePayload ((requestEventKey req).getD "") (requestPayload req) with
        | Outcome.throws message =>
            (fs, { status := 500, ok := false, message := message, missing := none,
                   file := none })
        | Outcome.returns validation =>
            if !validation.ok then
              (fs, { status := 400, ok := false, message := "Missing fields",
                     missing := validation.missing, file := none })
            else
              match validation.schema with
              | none =>
                  (fs, { status := 500, ok := false,
                         message := "Cannot read properties of undefined", missing := none,
                         file := none })
              | some schema =>
                  ((appendRowToCSV host fs schema.file schema.headers (requestPayload req)).1,
                   { status := 200, ok := true, message := "Registered", missing := none,
                     file := some
                       (appendRowToCSV host fs schema.file schema.headers
                         (requestPayload req)).2 }) := by
  rfl

/-- C12: when the validation of a request is not ok (whatever `validatePayload` returns for the
handler's event key and record has `ok` false, as for an unknown event key or a missing required
field), the handler leaves the file state as it was and answers not-ok with no file path. -/
theorem register_invalid_writes_nothing (host : Host) (fs : FS) (req : Request)
    (hbad : ∀ validation : Validation,
      validatePayload ((requestEventKey req).getD "") (requestPayload req) =
        Outcome.returns validation → validation.ok = false) :
    (register host fs req).1 = fs ∧
      (register host fs req).2.ok = false ∧
      (register host fs req).2.file = none := by
  rw [register_eq]
  split
  · exact ⟨rfl, rfl, rfl⟩
  · cases hv : validatePayload ((requestEventKey req).getD "") (requestPayload req) with
    | throws message => exact ⟨rfl, rfl, rfl⟩
    | returns validation =>
      have hok := hbad validation hv
      simp [hok]

/-- Witness for C12: a request with two required fields missing, served when a log file
exists. -/
theorem register_invalid_writes_nothing_witness :
    (register demoHost oneLogFile incompleteRequest).1 = oneLogFile ∧
      (register demoHost oneLogFile incompleteRequest).2.ok = false ∧
      (register demoHost oneLogFile incompleteRequest).2.file = none :=
  register_invalid_writes_nothing demoHost oneLogFile incompleteRequest (by
    intro validation hv
    have hval : validatePayload ((requestEventKey incompleteRequest).getD "")
        (requestPayload incompleteRequest) =
        Outcome.returns
          { ok := false, message := none, missing := some ["college", "email"],
            schema := some { file := "vedix.csv", headers := soloHeaders,
                             required := soloRequired } } := by decide
    rw [hval] at hv
    cases hv
    rfl)

theorem register_unknown_event (host : Host) (fs : FS) (req : Request)
    (hkey : truthyField (requestEventKey req) = true)
    (hpayload : req.payload ≠ ParsedPayload.falsy)
    (hunknown : lookupSchema ((requestEventKey req).getD "") = SchemaLookup.undefined) :
    register host fs req =
      (fs, { status := 400, ok := false, message := "Missing fields", missing := none,
             file := none }) := by
  rw [register_eq, validatePayload_of_undefined _ _ hunknown]
  simp [hkey, hpayload]

theorem register_missing_fields (host : Host) (fs : FS) (req : Request) (schema : Schema)
    (hkey : truthyField (requestEventKey req) = true)
    (hpayload : req.payload ≠ ParsedPayload.falsy)
    (hown : lookupSchema ((requestEventKey req).getD "") = SchemaLookup.own schema)
    (hmissing : absentKeys schema.required (requestPayload req) ≠ []) :
    register host fs req =
      (fs, { status := 400, ok := false, message := "Missing fields",
             missing := some (absentKeys schema.required (requestPayload req)),
             file := none }) := by
  rw [register_eq, validatePayload_of_own _ _ _ hown]
  simp [hkey, hpayload, hmissing]

theorem register_valid (host : Host) (fs : FS) (req : Request) (schema : Schema)
    (hkey : truthyField (requestEventKey req) = true)
    (hpayload : req.payload ≠ ParsedPayload.falsy)
    (hown : lookupSchema ((requestEventKey req).getD "") = SchemaLookup.own schema)
    (hmissing : absentKeys schema.required (requestPayload req) = []) :
    register host fs req =
      ((appendRowToCSV host fs schema.file schema.headers (requestPayload req)).1,
       { status := 200, ok := true, message := "Registered", missing := none,
         file := some (logPath host schema) }) := by
  rw [register_eq, validatePayload_of_own _ _ _ hown]
  simp [hkey, hpayload, hmissing, appendRowToCSV_path, logPath]

/-- C13 at the failing input: a request for the event key `robo-race`, which has no schema.
`validatePayload` answers with the message `Unknown event key`, but the handler reports status
400 with the message `Missing fields`, the message it also gives a request with missing
required fields, and a request for the inherited name `constructor` is answered with status 500
and neither of the three outcomes. -/
theorem register_unknown_event_reported_as_missing_fields :
    lookupSchema "robo-race" = SchemaLookup.undefined ∧
      validatePayload "robo-race" (requestPayload unknownEventRequest) =
        Outcome.returns
          { ok := false, message := some "Unknown event key", missing := none,
            schema := none } ∧
      (register demoHost noFiles unknownEventRequest).2 =
        { status := 400, ok := false, message := "Missing fields", missing := none,
          file := none } ∧
      (register demoHost noFiles incompleteRequest).2 =
        { status := 400, ok := false, message := "Missing fields",
          missing := some ["college", "email"], file := none } ∧
      (register demoHost noFiles inheritedKeyRequest).2 =
        { status := 500, ok := false, message := "schema.required is not iterable",
          missing := none, file := none } := by
  refine ⟨by decide, by decide, by decide, by decide, by decide⟩

/-! ## Validation looks at keys only (C14) -/

theorem absentKeys_congr (required : List String) (p q : Payload)
    (h : ∀ k, k ∈ p.keys ↔ k ∈ q.keys) :
    absentKeys required p = absentKeys required q := by
  unfold absentKeys
  apply List.filter_congr
  intro k _
  simp only [h]

theorem not_mem_absentKeys_of_mem_keys (required : List String) (p : Payload) (k : String)
    (hk : k ∈ p.keys) : k ∉ absentKeys required p := by
  unfold absentKeys
  intro hmem
  have hall := of_decide_eq_true (List.mem_filter.mp hmem).2
  exact hall k hk rfl

/-- C14: two records with the same set of keys get the same result from `validatePayload`,
whatever their values are; and a key that is present in the record, with any value, is never in
the reported `missing` list. -/
theorem validatePayload_depends_on_keys_only (eventKey : String) (p q : Payload)
    (h : ∀ k, k ∈ p.keys ↔ k ∈ q.keys) :
    validatePayload eventKey p = validatePayload eventKey q ∧
      ∀ (validation : Validation) (missing : List String),
        validatePayload eventKey p = Outcome.returns validation →
        validation.missing = some missing → ∀ k ∈ p.keys, k ∉ missing := by
  constructor
  · cases hl : lookupSchema eventKey with
    | own schema =>
      rw [validatePayload_of_own _ _ _ hl, validatePayload_of_own _ _ _ hl,
        absentKeys_congr schema.required p q h]
    | inherited =>
      rw [validatePayload_of_inherited _ _ hl, validatePayload_of_inherited _ _ hl]
    | undefined =>
      rw [validatePayload_of_undefined _ _ hl, validatePayload_of_undefined _ _ hl]
  · intro validation missing hv hm k hk
    cases hl : lookupSchema eventKey with
    | own schema =>
      rw [validatePayload_of_own _ _ _ hl] at hv
      cases hv
      cases hm
      exact not_mem_absentKeys_of_mem_keys schema.required p k hk
    | inherited =>
      rw [validatePayload_of_inherited _ _ hl] at hv
      cases hv
    | undefined =>
      rw [validatePayload_of_undefined _ _ hl] at hv
      cases hv
      cases hm

/-- Witness for C14: event `vedix`, a record with an empty `usn` and an undefined `teamName`,
and a record with the same keys and other values. -/
theorem validatePayload_depends_on_keys_only_witness :
    validatePayload "vedix" [("usn", JSVal.str ""), ("teamName", JSVal.undefined)] =
      validatePayload "vedix" [("teamName", JSVal.str "Alpha"), ("usn", JSVal.num 7)] :=
  (validatePayload_depends_on_keys_only "vedix"
    [("usn", JSVal.str ""), ("teamName", JSVal.undefined)]
    [("teamName", JSVal.str "Alpha"), ("usn", JSVal.num 7)]
    (by
      intro k
      simp [Payload.keys, or_comm])).1

/-- A required key with an empty value is not reported as missing. -/
theorem validatePayload_empty_value_example :
    validatePayload "vedix" [("usn", JSVal.str ""), ("teamName", JSVal.undefined)] =
      Outcome.returns
        { ok := false, message := none,
          missing := some ["name1", "college", "phone", "email", "utrId", "utrNumber"],
          schema := some { file := "vedix.csv", headers := soloHeaders,
                           required := soloRequired } } := by
  decide

/-! ## Two edges outside the handler's inputs, and header-style keys (C17) -/

/-- A record that stores `undefined`, which `JSON.parse` never produces: for column `College`
and a `college` key holding `undefined` the generic lookup returns the stored `undefined`, and
the data line carries the text `undefined` in quotes; the identity branch, for comparison, turns
an undefined `usn2` into the empty string. -/
theorem findValue_undefined_value_written :
    findValue [("college", JSVal.undefined)] "College" = JSVal.undefined ∧
      csvLine (resolveRow ["College"] [("college", JSVal.undefined)]) = "\"undefined\"\n" ∧
      csvLine (resolveRow ["College"] []) = "\"\"\n" ∧
      findValue [("usn2", JSVal.undefined)] "USN/ID 2" = JSVal.str "" ∧
      csvSafe JSVal.undefined = "" := by
  decide

/-- A column whose normalised form is empty, which no schema has: for column `-` and a record
whose only key is the empty string with value `x`, the first key whose normalised form equals
the column's is the empty key, and `findValue` resolves to the empty string, because the test
on `matchKey` fails for the empty key. -/
theorem findValue_empty_key_dropped :
    normalize "-" ∉ specialForms ∧
      (Payload.keys [("", JSVal.str "x")]).find? (fun pk => normalize pk = normalize "-") =
        some "" ∧
      Payload.get [("", JSVal.str "x")] "" = JSVal.str "x" ∧
      findValue [("", JSVal.str "x")] "-" = JSVal.str "" := by
  decide

/-- C17 at the failing inputs: for every registered event, the record keyed by the schema's
column names does not pass `validatePayload`: the identity keys `usn`, `usn1` to `usn4` are
reported missing, because `USN/ID` normalises to `usnid` and not to `usn`. -/
theorem validatePayload_header_keys_rejected :
    EVENT_SCHEMAS.all
        (fun e => decide (validatePayload e.1 (headerKeyed e.2 (JSVal.str "x")) =
          Outcome.returns
            { ok := false, message := none,
              missing := some (e.2.required.filter fun k => decide (k ∈ identityKeys)),
              schema := some e.2 } ∧
          e.2.required.filter (fun k => decide (k ∈ identityKeys)) ≠ [])) = true ∧
      validatePayload "vedix" (headerKeyed
          { file := "vedix.csv", headers := soloHeaders, required := soloRequired }
          (JSVal.str "x")) =
        Outcome.returns
          { ok := false, message := none, missing := some ["usn"],
            schema := some { file := "vedix.csv", headers := soloHeaders,
                             required := soloRequired } } ∧
      normalize "USN/ID" = "usnid" ∧ normalize "usn" = "usn" := by
  refine ⟨by decide, by decide, by decide, by decide⟩

/-! ## The generic lookup, and the Timestamp column (C20) -/

theorem findValue_generic (payload : Payload) (header : String)
    (hn : normalize header ∉ specialForms) :
    findValue payload header =
      match payload.keys.find? (fun pk => normalize pk = normalize header) with
      | some matchKey => if matchKey ≠ "" then payload.get matchKey else JSVal.str ""
      | none => JSVal.str "" := by
  simp only [specialForms, List.mem_cons, List.mem_singleton, List.not_mem_nil, or_false,
    not_or] at hn
  obtain ⟨h1, h2, h3, h4, h5, h6, h7, h8⟩ := hn
  unfold findValue
  simp only [h1, h2, h3, h4, h5, h6, h7, h8, or_self, if_false]

theorem findValue_generic_none (payload : Payload) (header : String)
    (hn : normalize header ∉ specialForms)
    (hno : ∀ pk ∈ payload.keys, normalize pk ≠ normalize header) :
    findValue payload header = JSVal.str "" := by
  rw [findValue_generic payload header hn]
  have hfind : payload.keys.find? (fun pk => normalize pk = normalize header) = none := by
    rw [List.find?_eq_none]
    intro pk hpk
    simpa using hno pk hpk
  rw [hfind]

theorem keys_set (p : Payload) (k : String) (v : JSVal) :
    ∀ pk ∈ (p.set k v).keys, pk ∈ p.keys ∨ pk = k := by
  intro pk hpk
  unfold Payload.set at hpk
  split at hpk
  · simp only [Payload.keys, List.map_map, List.mem_map, Function.comp] at hpk
    obtain ⟨kv, hkv, hfst⟩ := hpk
    by_cases hk : kv.1 = k
    · right
      rw [← hfst]
      simp [hk]
    · left
      rw [← hfst]
      simp only [hk, if_false]
      exact List.mem_map_of_mem Prod.fst hkv
  · simp only [Payload.keys, List.map_append, List.map_cons, List.map_nil, List.mem_append,
      List.mem_singleton] at hpk
    exact hpk

theorem keys_attachDerived (p : Payload) (fileName eventName : String) :
    ∀ pk ∈ (attachDerived p fileName eventName).keys, pk ∈ p.keys ∨ pk ∈ injectedKeys := by
  intro pk hpk
  unfold attachDerived at hpk
  rcases keys_set _ _ _ pk hpk with h4 | h4
  · rcases keys_set _ _ _ pk h4 with h3 | h3
    · rcases keys_set _ _ _ pk h3 with h2 | h2
      · rcases keys_set _ _ _ pk h2 with h1 | h1
        · exact Or.inl h1
        · exact Or.inr (by simp [injectedKeys, h1])
      · exact Or.inr (by simp [injectedKeys, h2])
    · exact Or.inr (by simp [injectedKeys, h3])
  · exact Or.inr (by simp [injectedKeys, h4])

/-- C20: every registered schema ends with the column `Timestamp`, and for a submitted record
with no key that normalises to `timestamp`, whatever file name and event name the handler
attaches, the Timestamp column resolves to the empty string, which is the last cell of the row
the handler writes. -/
theorem timestamp_cell_empty (eventKey : String) (schema : Schema) (submitted : Payload)
    (fileName eventName : String) (h : registered eventKey schema)
    (hno : ∀ pk ∈ submitted.keys, normalize pk ≠ "timestamp") :
    schema.headers.getLast? = some "Timestamp" ∧
      findValue (attachDerived submitted fileName eventName) "Timestamp" = JSVal.str "" ∧
      (resolveRow schema.headers (attachDerived submitted fileName eventName)).getLast? =
        some (JSVal.str "") := by
  have hlast : ∀ e ∈ EVENT_SCHEMAS, e.2.headers.getLast? = some "Timestamp" := by decide
  have hschema := hlast _ (lookupSchema_own_mem eventKey schema h)
  have hnorm : normalize "Timestamp" = "timestamp" := by decide
  have hinj : ∀ pk ∈ injectedKeys, normalize pk ≠ "timestamp" := by decide
  have hcell : findValue (attachDerived submitted fileName eventName) "Timestamp" =
      JSVal.str "" := by
    apply findValue_generic_none
    · rw [hnorm]
      decide
    · intro pk hpk
      rw [hnorm]
      rcases keys_attachDerived submitted fileName eventName pk hpk with hs | hi
      · exact hno pk hs
      · exact hinj pk hi
  refine ⟨hschema, hcell, ?_⟩
  unfold resolveRow
  rw [List.getLast?_map, hschema]
  simp [hcell]

/-- Witness for C20: event `vedix` and the record of the end-to-end scenario. -/
theorem timestamp_cell_empty_witness :
    (resolveRow soloHeaders (attachDerived vedixRecord "1700-shot.png" "Vedix")).getLast? =
      some (JSVal.str "") :=
  (timestamp_cell_empty "vedix"
    { file := "vedix.csv", headers := soloHeaders, required := soloRequired }
    vedixRecord "1700-shot.png" "Vedix" (by decide) (by decide)).2.2

/-! ## Required values reach the row (C19) -/

theorem mem_keys_of_get_str (p : Payload) (k s : String) (h : p.get k = JSVal.str s) :
    k ∈ p.keys := by
  unfold Payload.get at h
  cases hf : p.find? (fun kv => kv.1 = k) with
  | none =>
    rw [hf] at h
    cases h
  | some kv =>
    have hk : kv.1 = k := by simpa using List.find?_some hf
    rw [← hk]
    exact List.mem_map_of_mem Prod.fst (List.mem_of_find?_eq_some hf)

theorem find?_eq_some_of_unique {α : Type} (p : α → Bool) (l : List α) (a : α) (ha : a ∈ l)
    (hp : p a = true) (huniq : ∀ x ∈ l, p x = true → x = a) : l.find? p = some a := by
  induction l with
  | nil => cases ha
  | cons x rest ih =>
    by_cases hx : p x = true
    · rw [List.find?_cons_of_pos _ hx, huniq x (List.mem_cons_self x rest) hx]
    · rw [List.find?_cons_of_neg _ hx]
      rcases List.mem_cons.mp ha with hax | har
      · exact absurd (hax ▸ hp) hx
      · exact ih har fun y hy => huniq y (List.mem_cons_of_mem x hy)

theorem findValue_generic_unique (payload : Payload) (header k : String)
    (hn : normalize header ∉ specialForms) (hk : k ∈ payload.keys)
    (hkn : normalize k = normalize header) (hne : k ≠ "")
    (huniq : ∀ pk ∈ payload.keys, normalize pk = normalize header → pk = k) :
    findValue payload header = payload.get k := by
  rw [findValue_generic payload header hn]
  have hfind : payload.keys.find? (fun pk => normalize pk = normalize header) = some k := by
    apply find?_eq_some_of_unique _ _ _ hk
    · simpa using hkn
    · intro pk hpk hp
      exact huniq pk hpk (by simpa using hp)
  rw [hfind]
  simp [hne]

theorem findValue_usnid (payload : Payload) (header : String)
    (h : normalize header = "usnid") :
    findValue payload header =
      (((payload.get "usn").or (payload.get "usn1")).or (payload.get "USN")).or
        (JSVal.str "") := by
  unfold findValue
  simp [h]

theorem or_of_truthy (a b : JSVal) (h : a.truthy = true) : a.or b = a := by
  simp [JSVal.or, h]

theorem truthy_of_nonempty (s : String) (h : s ≠ "") : (JSVal.str s).truthy = true := by
  simp [JSVal.truthy, h]

theorem findValue_identity_key (payload : Payload) (k s : String) (hk : k ∈ identityKeys)
    (hs : s ≠ "") (hv : payload.get k = JSVal.str s) :
    findValue payload (columnFor k) = payload.get k := by
  have ht : (payload.get k).truthy = true := by
    rw [hv]
    exact truthy_of_nonempty s hs
  simp only [identityKeys, List.mem_cons, List.mem_singleton, List.not_mem_nil, or_false] at hk
  rcases hk with rfl | rfl | rfl | rfl | rfl
  · rw [findValue_usnid payload _ (by decide), or_of_truthy _ _ ht, or_of_truthy _ _ ht,
      or_of_truthy _ _ ht]
  · rw [findValue_usnid1 payload _ (by decide), or_of_truthy _ _ ht, or_of_truthy _ _ ht]
  · rw [findValue_usnid2 payload _ (by decide), or_of_truthy _ _ ht]
  · rw [findValue_usnid3 payload _ (by decide), or_of_truthy _ _ ht]
  · rw [findValue_usnid4 payload _ (by decide), or_of_truthy _ _ ht]

theorem required_keys_facts :
    (∀ e ∈ EVENT_SCHEMAS, ∀ k ∈ e.2.required, k ∈ allRequired ∧ columnFor k ∈ e.2.headers) ∧
      ∀ k ∈ allRequired, k ∈ identityKeys ∨
        (normalize (columnFor k) ∉ specialForms ∧ normalize k = normalize (columnFor k) ∧
          k ≠ "" ∧
          ∀ pk ∈ allRequired ++ injectedKeys, normalize pk = normalize (columnFor k) → pk = k) := by
  constructor
  · decide
  · decide

/-- C19: for a registered event and a record whose keys are required keys of the schema or
keys the handler injects, and in which every required key holds a non-empty string, validation
passes with an empty `missing` list, and for every required key the schema has a column that
resolves to that key's value. -/
theorem required_values_reach_row (eventKey : String) (schema : Schema) (payload : Payload)
    (h : registered eventKey schema)
    (hkeys : ∀ pk ∈ payload.keys, pk ∈ schema.required ∨ pk ∈ injectedKeys)
    (hvals : ∀ k ∈ schema.required, ∃ s : String, s ≠ "" ∧ payload.get k = JSVal.str s) :
    validatePayload eventKey payload =
        Outcome.returns
          { ok := true, message := none, missing := some [], schema := some schema } ∧
      ∀ k ∈ schema.required, ∃ column ∈ schema.headers,
        findValue payload column = payload.get k ∧
          payload.get k ∈ resolveRow schema.headers payload := by
  have hmem := lookupSchema_own_mem eventKey schema h
  obtain ⟨hschema, hall⟩ := required_keys_facts
  have hpresent : ∀ k ∈ schema.required, k ∈ payload.keys := by
    intro k hk
    obtain ⟨s, _, hv⟩ := hvals k hk
    exact mem_keys_of_get_str payload k s hv
  have habsent : absentKeys schema.required payload = [] := by
    unfold absentKeys
    rw [List.filter_eq_nil_iff]
    intro k hk hd
    exact of_decide_eq_true hd k (hpresent k hk) rfl
  constructor
  · rw [validatePayload_of_own _ _ _ h, habsent]
    rfl
  · intro k hk
    obtain ⟨s, hs, hv⟩ := hvals k hk
    obtain ⟨hkall, hcol⟩ := hschema _ hmem k hk
    have hfind : findValue payload (columnFor k) = payload.get k := by
      rcases hall k hkall with hid | ⟨hn, hkn, hne, huniq⟩
      · exact findValue_identity_key payload k s hid hs hv
      · apply findValue_generic_unique payload (columnFor k) k hn (hpresent k hk) hkn hne
        intro pk hpk hnorm
        apply huniq pk _ hnorm
        rcases hkeys pk hpk with hr | hi
        · exact List.mem_append_left _ (hschema _ hmem pk hr).1
        · exact List.mem_append_right _ hi
    refine ⟨columnFor k, hcol, hfind, ?_⟩
    rw [← hfind]
    exact List.mem_map_of_mem _ hcol

/-- Witness for C19: event `vedix` and the record of the end-to-end scenario with the
handler's keys attached. -/
theorem required_values_reach_row_witness :
    validatePayload "vedix" (attachDerived vedixRecord "1700-shot.png" "Vedix") =
        Outcome.returns
          { ok := true, message := none, missing := some [],
            schema := some { file := "vedix.csv", headers := soloHeaders,
                             required := soloRequired } } ∧
      ∀ k ∈ soloRequired, ∃ column ∈ soloHeaders,
        findValue (attachDerived vedixRecord "1700-shot.png" "Vedix") column =
            Payload.get (attachDerived vedixRecord "1700-shot.png" "Vedix") k ∧
          Payload.get (attachDerived vedixRecord "1700-shot.png" "Vedix") k ∈
            resolveRow soloHeaders (attachDerived vedixRecord "1700-shot.png" "Vedix") :=
  required_values_reach_row "vedix"
    { file := "vedix.csv", headers := soloHeaders, required := soloRequired }
    (attachDerived vedixRecord "1700-shot.png" "Vedix") (by decide) (by decide)
    (by
      intro k hk
      simp only [soloRequired, List.mem_cons, List.mem_singleton, List.not_mem_nil,
        or_false] at hk
      rcases hk with rfl | rfl | rfl | rfl | rfl | rfl | rfl | rfl
      · exact ⟨"Alpha", by decide, by decide⟩
      · exact ⟨"Asha", by decide, by decide⟩
      · exact ⟨"1AB20CS001", by decide, by decide⟩
      · exact ⟨"ABC", by decide, by decide⟩
      · exact ⟨"9999999999", by decide, by decide⟩
      · exact ⟨"a@b.com", by decide, by decide⟩
      · exact ⟨"U1", by decide, by decide⟩
      · exact ⟨"12345", by decide, by decide⟩)

/-! ## Data lines read back as CSV records -/

theorem intercalate_go_append (sep x y : String) (l : List String) :
    String.intercalate.go (x ++ y) sep l = x ++ String.intercalate.go y sep l := by
  induction l generalizing y with
  | nil => rfl
  | cons a rest ih =>
    simp only [String.intercalate.go]
    rw [String.append_assoc, String.append_assoc, ← String.append_assoc y, ih]

theorem intercalate_cons_cons (sep a b : String) (l : List String) :
    sep.intercalate (a :: b :: l) = a ++ (sep ++ sep.intercalate (b :: l)) := by
  simp only [String.intercalate, String.intercalate.go]
  rw [String.append_assoc, intercalate_go_append, intercalate_go_append]

theorem csvLine_singleton (v : JSVal) :
    (csvLine [v]).data = dq :: (escapeQuotes v.toStr).data ++ [dq, Char.ofNat 10] := by
  simp [csvLine, String.intercalate, String.intercalate.go, wrapQuotes]

theorem csvLine_cons_cons (v w : JSVal) (rest : List JSVal) :
    (csvLine (v :: w :: rest)).data =
      dq :: (escapeQuotes v.toStr).data ++ dq :: Char.ofNat 44 :: (csvLine (w :: rest)).data := by
  simp only [csvLine, List.map_cons, intercalate_cons_cons, String.data_append, wrapQuotes]
  simp

theorem readCsv_quoted_run (s cur : List Char) (done : List String) (rest : List Char) :
    readCsv CsvMode.quoted cur done
        ((s.flatMap fun c => if c = dq then [dq, dq] else [c]) ++ dq :: rest) =
      readCsv CsvMode.quoteSeen (cur ++ s) done rest := by
  induction s generalizing cur with
  | nil => simp [readCsv]
  | cons c s ih =>
    rw [List.flatMap_cons]
    by_cases hc : c = dq
    · subst hc
      simp only [if_true, List.cons_append, List.nil_append, List.append_assoc]
      rw [readCsv, if_pos rfl, readCsv, if_pos rfl, ih]
      simp
    · simp only [if_neg hc, List.cons_append, List.nil_append, List.append_assoc]
      rw [readCsv, if_neg hc, ih]
      simp

theorem readCsv_csvLine (row : List JSVal) (hne : row ≠ []) (done : List String) :
    readCsv CsvMode.fieldStart [] done (csvLine row).data =
      some (done ++ row.map JSVal.toStr) := by
  induction row generalizing done with
  | nil => exact absurd rfl hne
  | cons v rest ih =>
    cases rest with
    | nil =>
      rw [csvLine_singleton]
      rw [List.cons_append, readCsv, if_pos rfl]
      have hrun := readCsv_quoted_run v.toStr.data [] done [Char.ofNat 10]
      simp only [List.nil_append] at hrun
      have hdata : (escapeQuotes v.toStr).data ++ [dq, Char.ofNat 10] =
          (v.toStr.data.flatMap fun c => if c = dq then [dq, dq] else [c]) ++
            dq :: [Char.ofNat 10] := rfl
      rw [hdata, hrun, readCsv, if_neg (by decide), if_neg (by decide), if_pos rfl]
      simp
    | cons w rest =>
      rw [csvLine_cons_cons]
      rw [List.cons_append, readCsv, if_pos rfl]
      have hrun := readCsv_quoted_run v.toStr.data [] done
        (Char.ofNat 44 :: (csvLine (w :: rest)).data)
      simp only [List.nil_append] at hrun
      have hdata : (escapeQuotes v.toStr).data ++
            dq :: Char.ofNat 44 :: (csvLine (w :: rest)).data =
          (v.toStr.data.flatMap fun c => if c = dq then [dq, dq] else [c]) ++
            dq :: Char.ofNat 44 :: (csvLine (w :: rest)).data := rfl
      rw [hdata, hrun, readCsv, if_neg (by decide), if_pos rfl,
        ih (List.cons_ne_nil w rest)]
      simp

theorem parseCsvRecord_csvLine (headers : List String) (payload : Payload)
    (hne : headers ≠ []) :
    parseCsvRecord (csvLine (resolveRow headers payload)) =
      some ((resolveRow headers payload).map JSVal.toStr) := by
  unfold parseCsvRecord
  rw [readCsv_csvLine _ (by simpa [resolveRow] using hne)]
  simp

/-! ## The log-file invariant (C18) -/

theorem register_step (host : Host) (fs : FS) (req : Request) :
    (register host fs req).1 = fs ∨
      ∃ e ∈ EVENT_SCHEMAS, ∃ p : Payload,
        (register host fs req).1 = (appendRowToCSV host fs e.2.file e.2.headers p).1 := by
  cases hl : lookupSchema ((requestEventKey req).getD "") with
  | undefined =>
    left
    rw [register_eq, validatePayload_of_undefined _ _ hl]
    split <;> rfl
  | inherited =>
    left
    rw [register_eq, validatePayload_of_inherited _ _ hl]
    split <;> rfl
  | own schema =>
    rw [register_eq, validatePayload_of_own _ _ _ hl]
    split
    · exact Or.inl rfl
    · by_cases hm : absentKeys schema.required (requestPayload req) = []
      · right
        refine ⟨(_, schema), lookupSchema_own_mem _ _ hl, requestPayload req, ?_⟩
        simp [hm]
      · left
        simp [hm]

theorem logContent_snoc (headers : List String) (payloads : List Payload) (p : Payload) :
    logContent headers (payloads ++ [p]) =
      logContent headers payloads ++ csvLine (resolveRow headers p) := by
  simp [logContent, List.foldl_append]

theorem wellFormedLogs_append (host : Host) (fs : FS)
    (hinj : ∀ a ∈ EVENT_SCHEMAS, ∀ b ∈ EVENT_SCHEMAS,
      logPath host a.2 = logPath host b.2 → a = b)
    (hfs : WellFormedLogs host fs) (e : String × Schema) (he : e ∈ EVENT_SCHEMAS)
    (p : Payload) :
    WellFormedLogs host (appendRowToCSV host fs e.2.file e.2.headers p).1 := by
  intro q content hq
  cases hold : fs (host.pathJoin host.CSV_DIR e.2.file) with
  | none =>
    rw [appendRowToCSV_new host fs _ _ _ hold] at hq
    unfold writeFileSync at hq
    by_cases hqp : q = host.pathJoin host.CSV_DIR e.2.file
    · rw [if_pos hqp] at hq
      refine ⟨e, he, hqp, [p], ?_⟩
      cases hq
      rfl
    · rw [if_neg hqp] at hq
      exact hfs q content hq
  | some old =>
    rw [appendRowToCSV_existing host fs _ _ _ old hold] at hq
    unfold writeFileSync at hq
    by_cases hqp : q = host.pathJoin host.CSV_DIR e.2.file
    · rw [if_pos hqp] at hq
      obtain ⟨e2, he2, hpath, payloads, hcontent⟩ := hfs _ old hold
      have hsame : e = e2 := hinj e he e2 he2 hpath
      subst hsame
      refine ⟨e, he, hqp, payloads ++ [p], ?_⟩
      cases hq
      rw [logContent_snoc, hcontent]
    · rw [if_neg hqp] at hq
      exact hfs q content hq

theorem wellFormedLogs_register (host : Host) (fs : FS)
    (hinj : ∀ a ∈ EVENT_SCHEMAS, ∀ b ∈ EVENT_SCHEMAS,
      logPath host a.2 = logPath host b.2 → a = b)
    (hfs : WellFormedLogs host fs) (req : Request) :
    WellFormedLogs host (register host fs req).1 := by
  rcases register_step host fs req with hsame | ⟨e, he, p, happ⟩
  · rw [hsame]
    exact hfs
  · rw [happ]
    exact wellFormedLogs_append host fs hinj hfs e he p

theorem wellFormedLogs_run (host : Host)
    (hinj : ∀ a ∈ EVENT_SCHEMAS, ∀ b ∈ EVENT_SCHEMAS,
      logPath host a.2 = logPath host b.2 → a = b)
    (requests : List Request) (fs : FS) (hfs : WellFormedLogs host fs) :
    WellFormedLogs host (runRequests host fs requests) := by
  induction requests generalizing fs with
  | nil => exact hfs
  | cons req rest ih =>
    exact ih _ (wellFormedLogs_register host fs hinj hfs req)

theorem register_keeps_prefix (host : Host) (fs : FS) (req : Request) (q content : String)
    (hq : fs q = some content) :
    ∃ more : String, (register host fs req).1 q = some (content ++ more) := by
  rcases register_step host fs req with hsame | ⟨e, _, p, happ⟩
  · exact ⟨"", by rw [hsame, hq]; simp⟩
  · rw [happ]
    by_cases hqp : q = host.pathJoin host.CSV_DIR e.2.file
    · subst hqp
      rw [appendRowToCSV_existing host fs _ _ _ content hq]
      exact ⟨csvLine (resolveRow e.2.headers p), by simp [writeFileSync]⟩
    · cases hold : fs (host.pathJoin host.CSV_DIR e.2.file) with
      | none =>
        rw [appendRowToCSV_new host fs _ _ _ hold]
        exact ⟨"", by simp [writeFileSync, hqp, hq]⟩
      | some old =>
        rw [appendRowToCSV_existing host fs _ _ _ old hold]
        exact ⟨"", by simp [writeFileSync, hqp, hq]⟩

theorem run_keeps_prefix (host : Host) (later : List Request) (fs : FS) (q content : String)
    (hq : fs q = some content) :
    ∃ more : String, runRequests host fs later q = some (content ++ more) := by
  induction later generalizing fs content with
  | nil => exact ⟨"", by simp [runRequests, hq]⟩
  | cons req rest ih =>
    obtain ⟨m1, h1⟩ := register_keeps_prefix host fs req q content hq
    obtain ⟨m2, h2⟩ := ih (register host fs req).1 (content ++ m1) h1
    exact ⟨m1 ++ m2, by
      rw [← String.append_assoc]
      exact h2⟩

theorem runRequests_append (host : Host) (fs : FS) (earlier later : List Request) :
    runRequests host fs (earlier ++ later) =
      runRequests host (runRequests host fs earlier) later := by
  simp [runRequests, List.foldl_append]

/-- C18: start with no files and let the handler serve any list of requests. If distinct
schemas have distinct log paths, every file that exists afterwards is the log file of one
schema and consists of that schema's header line followed by data lines, each resolved against
that schema's columns in order; every such data line reads back, under standard CSV quoting, as
exactly one field per column, holding the resolved values; and whatever requests follow, the
content stays in place as a prefix, so the header is never rewritten. -/
theorem log_files_well_formed (host : Host)
    (hinj : ∀ a ∈ EVENT_SCHEMAS, ∀ b ∈ EVENT_SCHEMAS,
      logPath host a.2 = logPath host b.2 → a = b)
    (requests : List Request) (path content : String)
    (hfile : runRequests host noFiles requests path = some content) :
    ∃ e ∈ EVENT_SCHEMAS, path = host.pathJoin host.CSV_DIR e.2.file ∧
      (∃ payloads : List Payload,
        content =
            (payloads.map fun p => csvLine (resolveRow e.2.headers p)).foldl (· ++ ·)
              (",".intercalate e.2.headers ++ "\n") ∧
          ∀ p ∈ payloads, ∃ fields : List String,
            parseCsvRecord (csvLine (resolveRow e.2.headers p)) = some fields ∧
              fields.length = e.2.headers.length ∧
              fields = (e.2.headers.map (findValue p)).map JSVal.toStr) ∧
      ∀ later : List Request, ∃ more : String,
        runRequests host noFiles (requests ++ later) path = some (content ++ more) := by
  have hnonempty : ∀ e ∈ EVENT_SCHEMAS, e.2.headers ≠ [] := by decide
  have hstart : WellFormedLogs host noFiles := by
    intro q c hq
    cases hq
  obtain ⟨e, he, hpath, payloads, hcontent⟩ :=
    wellFormedLogs_run host hinj requests noFiles hstart path content hfile
  refine ⟨e, he, hpath, ⟨payloads, hcontent, ?_⟩, ?_⟩
  · intro p _
    refine ⟨_, parseCsvRecord_csvLine e.2.headers p (hnonempty e he), ?_, rfl⟩
    simp [resolveRow]
  · intro later
    rw [runRequests_append]
    exact run_keeps_prefix host later _ path content hfile

set_option maxRecDepth 100000 in
/-- Witness for C18: the four requests of `demoRequests` and the file `vedix.csv`. -/
theorem log_files_well_formed_witness :
    ∃ e ∈ EVENT_SCHEMAS, "/srv/app/csv/vedix.csv" = demoHost.pathJoin demoHost.CSV_DIR e.2.file ∧
      (∃ payloads : List Payload,
        demoContent =
            (payloads.map fun p => csvLine (resolveRow e.2.headers p)).foldl (· ++ ·)
              (",".intercalate e.2.headers ++ "\n") ∧
          ∀ p ∈ payloads, ∃ fields : List String,
            parseCsvRecord (csvLine (resolveRow e.2.headers p)) = some fields ∧
              fields.length = e.2.headers.length ∧
              fields = (e.2.headers.map (findValue p)).map JSVal.toStr) ∧
      ∀ later : List Request, ∃ more : String,
        runRequests demoHost noFiles (demoRequests ++ later) "/srv/app/csv/vedix.csv" = some (demoContent ++ more) :=
  log_files_well_formed demoHost (by decide) demoRequests "/srv/app/csv/vedix.csv" demoContent
    (by rfl)

/-! ## The first matching key of a generic column (C16) -/

theorem find?_keys (p : String → Bool) (payload : Payload) :
    payload.keys.find? p = (payload.find? fun kv => p kv.1).map Prod.fst := by
  induction payload with
  | nil => rfl
  | cons x rest ih =>
    unfold Payload.keys at ih ⊢
    rw [List.map_cons]
    by_cases hx : p x.1 = true
    · simp [List.find?_cons, hx]
    · simp only [List.find?_cons, hx]
      exact ih

theorem get_of_find? (p : String → Bool) (payload : Payload) (kv : String × JSVal)
    (h : payload.find? (fun kv => p kv.1) = some kv) : payload.get kv.1 = kv.2 := by
  induction payload with
  | nil => cases h
  | cons x rest ih =>
    by_cases hx : p x.1 = true
    · simp only [List.find?_cons, hx] at h
      cases h
      simp [Payload.get]
    · simp only [List.find?_cons, hx] at h
      have hp : p kv.1 = true := by
        have hsome := List.find?_some h
        simpa using hsome
      have hne : ¬ x.1 = kv.1 := by
        intro he
        rw [he] at hx
        exact hx hp
      have hrest := ih h
      unfold Payload.get at hrest ⊢
      simp only [List.find?_cons, hne, decide_False]
      exact hrest

theorem findValue_generic_first (payload : Payload) (header : String)
    (hgen : normalize header ∉ specialForms) (hne : normalize header ≠ "") :
    findValue payload header =
      match payload.find? (fun kv => normalize kv.1 = normalize header) with
      | some kv => kv.2
      | none => JSVal.str "" := by
  rw [findValue_generic payload header hgen, find?_keys]
  cases hf : payload.find? (fun kv => decide (normalize kv.1 = normalize header)) with
  | none => rfl
  | some kv =>
    have hmatch : normalize kv.1 = normalize header := by simpa using List.find?_some hf
    have hkey : kv.1 ≠ "" := by
      intro he
      rw [he] at hmatch
      exact hne (hmatch.symm.trans (by decide))
    have hget := get_of_find? (fun k => decide (normalize k = normalize header)) payload kv hf
    simp [hkey, hget]

/-- C16: for every column of a registered schema that is not an identity column, the event-name
column or the screenshot column, and for every record, `findValue` resolves to the value stored
under the first key of the record, in key order, whose normalised form equals the column's, and
to the empty string when no key matches. -/
theorem generic_column_first_match (eventKey : String) (schema : Schema) (header : String)
    (payload : Payload) (h : registered eventKey schema) (hcol : header ∈ schema.headers)
    (hgen : normalize header ∉ specialForms) :
    findValue payload header =
      match payload.find? (fun kv => normalize kv.1 = normalize header) with
      | some kv => kv.2
      | none => JSVal.str "" := by
  have hall : ∀ e ∈ EVENT_SCHEMAS, ∀ c ∈ e.2.headers, normalize c ≠ "" := by decide
  exact findValue_generic_first payload header hgen
    (hall _ (lookupSchema_own_mem eventKey schema h) header hcol)

/-- Witness for C16: column `College` of `vedix` and a record with two keys of that normalised
form; the first one in key order supplies the value. -/
theorem generic_column_first_match_witness :
    findValue [("name1", JSVal.str "Asha"), ("COLLEGE", JSVal.str "first"),
        ("college", JSVal.str "second")] "College" = JSVal.str "first" :=
  (generic_column_first_match "vedix"
    { file := "vedix.csv", headers := soloHeaders, required := soloRequired } "College"
    [("name1", JSVal.str "Asha"), ("COLLEGE", JSVal.str "first"),
     ("college", JSVal.str "second")] (by decide) (by decide) (by decide)).trans (by decide)

/-! ## Resolution is total and absence yields the empty string (C15) -/

theorem get_stored_or_undefined (payload : Payload) (k : String) :
    payload.get k = JSVal.undefined ∨ ∃ kv ∈ payload, kv.2 = payload.get k := by
  unfold Payload.get
  cases hf : payload.find? (fun kv => kv.1 = k) with
  | none => exact Or.inl rfl
  | some kv => exact Or.inr ⟨kv, List.mem_of_find?_eq_some hf, rfl⟩

theorem or_stored_or_empty (payload : Payload) (a b : JSVal)
    (ha : a = JSVal.undefined ∨ ∃ kv ∈ payload, kv.2 = a)
    (hb : b = JSVal.str "" ∨ ∃ kv ∈ payload, kv.2 = b) :
    a.or b = JSVal.str "" ∨ ∃ kv ∈ payload, kv.2 = a.or b := by
  unfold JSVal.or
  by_cases ht : a.truthy = true
  · rw [if_pos ht]
    rcases ha with hu | hs
    · rw [hu] at ht
      cases ht
    · exact Or.inr hs
  · rw [if_neg ht]
    exact hb

theorem or_stored_or_undefined (payload : Payload) (a b : JSVal)
    (ha : a = JSVal.undefined ∨ ∃ kv ∈ payload, kv.2 = a)
    (hb : b = JSVal.undefined ∨ ∃ kv ∈ payload, kv.2 = b) :
    a.or b = JSVal.undefined ∨ ∃ kv ∈ payload, kv.2 = a.or b := by
  unfold JSVal.or
  by_cases ht : a.truthy = true
  · rw [if_pos ht]
    exact ha
  · rw [if_neg ht]
    exact hb

theorem findValue_stored_or_empty (payload : Payload) (header : String) :
    findValue payload header = JSVal.str "" ∨
      ∃ kv ∈ payload, kv.2 = findValue payload header := by
  have hg := get_stored_or_undefined payload
  have hempty : JSVal.str "" = JSVal.str "" ∨ ∃ kv ∈ payload, kv.2 = JSVal.str "" :=
    Or.inl rfl
  unfold findValue
  simp only []
  split_ifs with h0 h1 h2 h3 h4 h5 h6
  · exact or_stored_or_empty payload _ _
      (or_stored_or_undefined payload _ _
        (or_stored_or_undefined payload _ _ (hg "usn") (hg "usn1")) (hg "USN")) hempty
  · exact or_stored_or_empty payload _ _
      (or_stored_or_undefined payload _ _ (hg "usn1") (hg "usn")) hempty
  · exact or_stored_or_empty payload _ _ (hg "usn2") hempty
  · exact or_stored_or_empty payload _ _ (hg "usn3") hempty
  · exact or_stored_or_empty payload _ _ (hg "usn4") hempty
  · exact or_stored_or_empty payload _ _
      (or_stored_or_undefined payload _ _ (hg "eventName") (hg "Event Name")) hempty
  · exact or_stored_or_empty payload _ _ (hg "screenshot") hempty
  · split
    · rename_i matchKey hfind
      by_cases hk : matchKey = ""
      · simp [hk]
      · simp only [ne_eq, hk, not_false_eq_true, if_true]
        rcases hg matchKey with hu | hs
        · have hmem : matchKey ∈ payload.keys := List.mem_of_find?_eq_some hfind
          obtain ⟨kv, hkv, hfst⟩ := List.mem_map.mp hmem
          have hfound : (payload.find? fun e => e.1 = matchKey).isSome = true := by
            rw [List.find?_isSome]
            exact ⟨kv, hkv, by simpa using hfst⟩
          cases hf : payload.find? (fun e => e.1 = matchKey) with
          | none =>
            rw [hf] at hfound
            cases hfound
          | some e =>
            refine Or.inr ⟨e, List.mem_of_find?_eq_some hf, ?_⟩
            simp [Payload.get, hf]
        · exact Or.inr hs
    · exact Or.inl rfl

theorem get_of_mem_keys (payload : Payload) (k : String) (hk : k ∈ payload.keys) :
    ∃ kv ∈ payload, kv.2 = payload.get k := by
  obtain ⟨kv, hkv, hfst⟩ := List.mem_map.mp hk
  have hfound : (payload.find? fun e => e.1 = k).isSome = true := by
    rw [List.find?_isSome]
    exact ⟨kv, hkv, by simpa using hfst⟩
  cases hf : payload.find? (fun e => e.1 = k) with
  | none =>
    rw [hf] at hfound
    cases hfound
  | some e =>
    refine ⟨e, List.mem_of_find?_eq_some hf, ?_⟩
    simp [Payload.get, hf]

theorem or_undefined (b : JSVal) : JSVal.undefined.or b = b := rfl

theorem findValue_of_sources_absent (payload : Payload) (header : String)
    (hdom : ∀ kv ∈ payload, kv.2 ≠ JSVal.undefined)
    (hsrc : ∀ k ∈ sourceKeys payload header, payload.get k = JSVal.undefined) :
    findValue payload header = JSVal.str "" := by
  unfold sourceKeys at hsrc
  unfold findValue
  simp only [] at hsrc ⊢
  split_ifs at hsrc ⊢ with h0 h1 h2 h3 h4 h5 h6
  · rw [hsrc "usn" (by simp), hsrc "usn1" (by simp), hsrc "USN" (by simp)]
    rfl
  · rw [hsrc "usn1" (by simp), hsrc "usn" (by simp)]
    rfl
  · rw [hsrc "usn2" (by simp)]
    rfl
  · rw [hsrc "usn3" (by simp)]
    rfl
  · rw [hsrc "usn4" (by simp)]
    rfl
  · rw [hsrc "eventName" (by simp), hsrc "Event Name" (by simp)]
    rfl
  · rw [hsrc "screenshot" (by simp)]
    rfl
  · split
    · rename_i matchKey hfind
      have hmem : matchKey ∈ payload.keys := List.mem_of_find?_eq_some hfind
      have hnorm : normalize matchKey = normalize header := by
        simpa using List.find?_some hfind
      have hund : payload.get matchKey = JSVal.undefined :=
        hsrc matchKey (List.mem_filter.mpr ⟨hmem, by simpa using hnorm⟩)
      obtain ⟨kv, hkv, hval⟩ := get_of_mem_keys payload matchKey hmem
      exact absurd (hval.trans hund) (hdom kv hkv)
    · rfl

/-- C15: for every column list and every record that stores no `undefined` (its values are
strings or numbers, as in every record the handler builds), row resolution yields one cell per
column, no cell is `undefined`, every cell is a value stored in the record or the empty string,
and every column for which the record supplies no value, that is, none of the keys the column
draws on holds a value, resolves to the empty string and is written as the empty quoted
field. -/
theorem resolution_total_absent_empty (headers : List String) (payload : Payload)
    (hdom : ∀ kv ∈ payload, kv.2 ≠ JSVal.undefined) :
    (resolveRow headers payload).length = headers.length ∧
      (∀ cell ∈ resolveRow headers payload,
        cell ≠ JSVal.undefined ∧ (cell = JSVal.str "" ∨ ∃ kv ∈ payload, kv.2 = cell)) ∧
      ∀ header : String,
        (∀ k ∈ sourceKeys payload header, payload.get k = JSVal.undefined) →
          findValue payload header = JSVal.str "" ∧
            wrapQuotes (escapeQuotes (findValue payload header).toStr) = "\"\"" ∧
            csvLine (resolveRow [header] payload) = "\"\"\n" := by
  refine ⟨by simp [resolveRow], ?_, ?_⟩
  · intro cell hcell
    obtain ⟨header, _, hres⟩ := List.mem_map.mp hcell
    rw [← hres]
    have hstored := findValue_stored_or_empty payload header
    refine ⟨?_, hstored⟩
    rcases hstored with he | ⟨kv, hkv, hval⟩
    · rw [he]
      exact fun hu => JSVal.noConfusion hu
    · rw [← hval]
      exact hdom kv hkv
  · intro header hsrc
    have hcell := findValue_of_sources_absent payload header hdom hsrc
    refine ⟨hcell, ?_, ?_⟩
    · rw [hcell]
      decide
    · unfold resolveRow
      rw [List.map_cons, List.map_nil, hcell]
      decide

/-- Witness for C15: the record of the end-to-end scenario, which the columns `USN/ID 2` and
`Timestamp` find nothing in. -/
theorem resolution_total_absent_empty_witness :
    findValue vedixRecord "USN/ID 2" = JSVal.str "" ∧
      csvLine (resolveRow ["Timestamp"] vedixRecord) = "\"\"\n" :=
  have key := resolution_total_absent_empty ["USN/ID 2", "Timestamp"] vedixRecord (by decide)
  ⟨(key.2.2 "USN/ID 2" (by decide)).1, (key.2.2 "Timestamp" (by decide)).2.2⟩

end Zerone
